import Mathlib

/-!
Shallow embedding of the order-and-rental service (src/main.py, with the
in-memory prototype variant src/main_test.py where noted).

Modelling conventions:
* timestamps, dates, order ids and job ids (uuids) are natural numbers;
* monetary amounts are integers in cents (499.99 -> 49999);
* the SQL tables orders / order_logs / jobs are lists of records in
  insertion order; a SQL UPDATE ... WHERE key=%s maps over the list and
  rewrites the matching rows; SELECT ... WHERE key=%s is List.find?;
* the per-endpoint MySQL connection buffers writes until conn.commit()
  (mysql.connector runs with autocommit off); for the single-threaded
  endpoint functions every path commits before returning, so their
  embeddings apply writes directly, while the background workflow
  _process_confirm_order, whose failure behaviour depends on what was
  already committed, is embedded with an explicit write buffer;
* an HTTPException(code, detail) raised before any commit is an
  Except.error carrying the code and detail, leaving the state unchanged.
-/

namespace OrderService

/-- Order status enumeration, from src/models/order.py (OrderStatus). -/
inductive OrderStatus where
  | pending
  | active
  | returned
  | cancelled
deriving DecidableEq

/-- Job status enumeration, from src/models/job.py (JobStatus). -/
inductive JobStatus where
  | pending
  | running
  | succeeded
  | failed
deriving DecidableEq

/-- The .value strings of the OrderStatus enum members. -/
def OrderStatus.value : OrderStatus → String
  | .pending => "pending"
  | .active => "active"
  | .returned => "returned"
  | .cancelled => "cancelled"

/-- A row of the orders table (layout of src/main.py _row_to_order). -/
structure Order where
  id : Nat
  user_id : Nat
  item_id : Nat
  status : OrderStatus
  total_rent_cents : Nat
  deposit_cents : Nat
  created_at : Nat
  updated_at : Nat
  start_date : Nat
  end_date : Nat
deriving DecidableEq

/-- A row of the order_logs table (layout of src/main.py _row_to_log). -/
structure LogEntry where
  log_id : Nat
  order_id : Nat
  from_status : OrderStatus
  to_status : OrderStatus
  timestamp : Nat
deriving DecidableEq

/-- A row of the jobs table / an entry of the jobs_memory dict
(fields jobId, orderId, status, result of src/main.py). -/
structure Job where
  job_id : Nat
  order_id : Nat
  status : JobStatus
  result : Option String
deriving DecidableEq

/-- The full mutable state of src/main.py: the three Cloud SQL tables with
their auto-increment counters, the jobs_memory dict, and the queue of
background tasks registered via background_tasks.add_task (pairs of
order_id and job_id, in registration order). -/
structure St where
  orders : List Order
  nextOrderId : Nat
  logs : List LogEntry
  nextLogId : Nat
  jobs : List Job
  jobsMemory : List Job
  tasks : List (Nat × Nat)
deriving DecidableEq

/-- Empty database, no pending tasks. -/
def initSt : St :=
  { orders := [], nextOrderId := 1, logs := [], nextLogId := 1,
    jobs := [], jobsMemory := [], tasks := [] }

/-- SQL UPDATE helper: rewrite every element satisfying p with f. -/
def updIf {α : Type} (p : α → Bool) (f : α → α) (l : List α) : List α :=
  l.map (fun a => if p a then f a else a)

/-- SELECT ... FROM orders WHERE id=%s. -/
def findOrder (s : St) (oid : Nat) : Option Order :=
  s.orders.find? (fun o => o.id == oid)

/-- UPDATE orders SET status=%s, updated_at=%s WHERE id=%s. -/
def updateOrderRow (l : List Order) (oid : Nat) (st : OrderStatus) (ts : Nat) :
    List Order :=
  updIf (fun o => o.id == oid) (fun o => { o with status := st, updated_at := ts }) l

/-- SELECT ... FROM jobs WHERE job_id=%s (also used for jobs_memory lookup). -/
def findJob (l : List Job) (jid : Nat) : Option Job :=
  l.find? (fun j => j.job_id == jid)

/-- UPDATE jobs SET status=%s, result=%s WHERE job_id=%s. -/
def updateJobRow (l : List Job) (jid : Nat) (st : JobStatus) (res : Option String) :
    List Job :=
  updIf (fun j => j.job_id == jid) (fun j => { j with status := st, result := res }) l

/-- jobs_memory entry update writing only the status key, as in
src/main.py line 164 (jobs_memory of job_id, key status). -/
def setMemStatus (l : List Job) (jid : Nat) (st : JobStatus) : List Job :=
  updIf (fun j => j.job_id == jid) (fun j => { j with status := st }) l

/-- jobs_memory entry update writing the status key then the result key,
as in src/main.py lines 190-191 / 205-206 / 230-231 / 248-249. -/
def setMemTerm (l : List Job) (jid : Nat) (st : JobStatus) (res : String) : List Job :=
  updIf (fun j => j.job_id == jid) (fun j => { j with status := st, result := some res }) l

/-- Modelled from the spec: the value the database assigns to the log_id
primary key on INSERT INTO order_logs.  The column definition lives in
schema.sql, which src/main.py references but which is not part of src/;
section 3 of the spec describes logId for this store as unique and
monotonically increasing per store, i.e. a store-wide auto-increment. -/
def nextLogIdAssign (s : St) : Nat := s.nextLogId

/-- Embeds _create_log_db (src/main.py lines 136-151): INSERT a transition
log row for order oid and commit. -/
def createLogDb (s : St) (oid : Nat) (f t : OrderStatus) (ts : Nat) : St :=
  { s with
      logs := s.logs ++ [{ log_id := nextLogIdAssign s, order_id := oid,
                           from_status := f, to_status := t, timestamp := ts }],
      nextLogId := s.nextLogId + 1 }

/-- An HTTPException(status_code, detail). -/
structure HErr where
  code : Nat
  detail : String
deriving DecidableEq

/-- The row INSERTed by create_order: id from the orders auto-increment,
status PENDING, placeholder amounts, created_at = updated_at = now. -/
def newOrder (s : St) (uid iid sd ed now : Nat) : Order :=
  { id := s.nextOrderId, user_id := uid, item_id := iid, status := .pending,
    total_rent_cents := 49999, deposit_cents := 100000,
    created_at := now, updated_at := now, start_date := sd, end_date := ed }

/-- The state after create_order's INSERT plus initial audit row. -/
def createState (s : St) (uid iid sd ed now : Nat) : St :=
  createLogDb
    { s with orders := s.orders ++ [newOrder s uid iid sd ed now],
             nextOrderId := s.nextOrderId + 1 }
    s.nextOrderId .pending .pending now

/-- Embeds create_order (src/main.py lines 255-310): INSERT the new order
with status PENDING and placeholder amounts, write the initial
PENDING to PENDING audit row, then re-SELECT and return the row. -/
def create_order (s : St) (uid iid sd ed now : Nat) : Except HErr (St × Order) :=
  match findOrder (createState s uid iid sd ed now) s.nextOrderId with
  | none => .error { code := 500, detail := "Failed to create order" }
  | some row => .ok (createState s uid iid sd ed now, row)

/-- Embeds cancel_order (src/main.py lines 388-432): 404 if absent, 400 if
not PENDING, otherwise set CANCELLED, log PENDING to CANCELLED, commit. -/
def cancel_order (s : St) (oid now : Nat) : Except HErr (St × String) :=
  match findOrder s oid with
  | none => .error { code := 404, detail := "Order not found" }
  | some row =>
    if row.status ≠ OrderStatus.pending then
      .error { code := 400, detail := "Cannot cancel non-pending order" }
    else
      let s1 : St := { s with orders := updateOrderRow s.orders oid .cancelled now }
      let s2 := createLogDb s1 oid row.status .cancelled now
      .ok (s2, "Order cancelled successfully")

/-- Embeds update_order_status (src/main.py lines 435-495): 404 if absent,
400 if the current status is terminal, write status plus one log row only
when the status actually changes, then re-SELECT and return the row. -/
def update_order_status (s : St) (oid : Nat) (ns : OrderStatus) (now : Nat) :
    Except HErr (St × Order) :=
  match findOrder s oid with
  | none => .error { code := 404, detail := "Order not found" }
  | some row =>
    if row.status = OrderStatus.cancelled ∨ row.status = OrderStatus.returned then
      .error { code := 400,
               detail := "Cannot update terminal state " ++ row.status.value }
    else
      let s1 : St :=
        if row.status ≠ ns then
          createLogDb { s with orders := updateOrderRow s.orders oid ns now }
            oid row.status ns now
        else s
      match findOrder s1 oid with
      | none => .error { code := 500, detail := "row vanished" }
      | some row2 => .ok (s1, row2)

/-- The job row INSERTed by confirm_order: fresh uuid, PENDING, no result. -/
def newJob (oid jid : Nat) : Job :=
  { job_id := jid, order_id := oid, status := .pending, result := none }

/-- Embeds confirm_order (src/main.py lines 524-585): 404 if absent, 400 if
not PENDING, otherwise INSERT a PENDING job row keyed by the fresh uuid
jid, mirror it in jobs_memory, and register the background task. -/
def confirm_order (s : St) (oid jid : Nat) : Except HErr (St × Nat) :=
  match findOrder s oid with
  | none => .error { code := 404, detail := "Order not found" }
  | some row =>
    if row.status ≠ OrderStatus.pending then
      .error { code := 400, detail := "Only pending orders can be confirmed" }
    else
      let s1 : St := { s with jobs := s.jobs ++ [newJob oid jid],
                              jobsMemory := s.jobsMemory ++ [newJob oid jid],
                              tasks := s.tasks ++ [(oid, jid)] }
      .ok (s1, jid)

/-- Embeds get_job (src/main.py lines 588-626): 404 if absent; replies 202
while the job is PENDING or RUNNING (polling), else 200, with the row. -/
def get_job (s : St) (jid : Nat) : Except HErr (Nat × Job) :=
  match findJob s.jobs jid with
  | none => .error { code := 404, detail := "Job not found" }
  | some j =>
    if j.status = JobStatus.pending ∨ j.status = JobStatus.running then
      .ok (202, j)
    else
      .ok (200, j)

/-- One SQL statement buffered on a connection until conn.commit(). -/
inductive DBWrite where
  | setOrder (oid : Nat) (st : OrderStatus) (ts : Nat)
  | insertLog (oid : Nat) (f t : OrderStatus) (ts : Nat)
  | setJob (jid : Nat) (st : JobStatus) (res : Option String)
deriving DecidableEq

/-- Apply one committed write to the database state. -/
def applyWrite (s : St) : DBWrite → St
  | .setOrder oid st ts => { s with orders := updateOrderRow s.orders oid st ts }
  | .insertLog oid f t ts => createLogDb s oid f t ts
  | .setJob jid st res => { s with jobs := updateJobRow s.jobs jid st res }

/-- conn.commit(): apply the buffered statements, in order, atomically. -/
def commitW (s : St) (buf : List DBWrite) : St := buf.foldl applyWrite s

/-- A Python exception escaping a function.  The only exception
_process_confirm_order can let propagate is the KeyError of the
jobs_memory lookup on its first line, which precedes its try block. -/
inductive PyErr where
  | keyError
deriving DecidableEq

/-- Fault oracle: no database call raises. -/
def noFault : Nat → Bool := fun _ => false

/-- Embeds the except-branch of _process_confirm_order (src/main.py lines
233-249): on any unexpected failure, try to record the failure in the jobs
table (swallowing any further database error), then mark the jobs_memory
entry failed with result internal_error.  Its three database calls
(get_connection, UPDATE jobs, commit) are probed at the dedicated fault
indices 100, 101 and 102. -/
def confirmExceptHandler (fault : Nat → Bool) (s : St) (jid : Nat) : St :=
  let s1 := if fault 100 || fault 101 || fault 102 then s
            else commitW s [.setJob jid .failed (some "internal_error")]
  { s1 with jobsMemory := setMemTerm s1.jobsMemory jid .failed "internal_error" }

/-- Embeds _process_confirm_order (src/main.py lines 157-249), the
background confirmation workflow, run to completion without interruption.
fault tells which of its database calls raise, indexed in execution
order: 0 get_connection, 1 the SELECT of the order; then, on the branch
taken, 2 and 3 the UPDATE jobs and its commit (order absent or not
PENDING), or 2 the UPDATE orders, 3 and 4 the INSERT and commit of
_create_log_db (which commits the order update together with the log
row), 5 the UPDATE jobs and 6 the final commit.  Uncommitted statements
are discarded when an exception aborts the connection. -/
def _process_confirm_order (fault : Nat → Bool) (s : St) (order_id job_id now : Nat) :
    Except PyErr St :=
  if (findJob s.jobsMemory job_id).isSome then
    let s0 : St := { s with jobsMemory := setMemStatus s.jobsMemory job_id .running }
    if fault 0 || fault 1 then .ok (confirmExceptHandler fault s0 job_id)
    else
      match findOrder s0 order_id with
      | none =>
        if fault 2 || fault 3 then .ok (confirmExceptHandler fault s0 job_id)
        else
          let s1 := commitW s0 [.setJob job_id .failed (some "order_not_found")]
          .ok { s1 with jobsMemory := setMemTerm s1.jobsMemory job_id .failed "order_not_found" }
      | some row =>
        if row.status ≠ OrderStatus.pending then
          if fault 2 || fault 3 then .ok (confirmExceptHandler fault s0 job_id)
          else
            let s1 := commitW s0 [.setJob job_id .failed (some "invalid_state")]
            .ok { s1 with jobsMemory := setMemTerm s1.jobsMemory job_id .failed "invalid_state" }
        else
          if fault 2 || fault 3 || fault 4 then .ok (confirmExceptHandler fault s0 job_id)
          else
            let s1 := commitW s0 [.setOrder order_id .active now,
                                  .insertLog order_id row.status .active now]
            if fault 5 || fault 6 then .ok (confirmExceptHandler fault s1 job_id)
            else
              let res := "/orders/" ++ toString order_id
              let s2 := commitW s1 [.setJob job_id .succeeded (some res)]
              .ok { s2 with jobsMemory := setMemTerm s2.jobsMemory job_id .succeeded res }
  else .error .keyError

/-- Whether some database call on the path _process_confirm_order executes
raises under the given fault oracle, driving the run into its
except-branch.  Mirrors the workflow's branch structure and call indices:
0 get_connection and 1 the SELECT on every path; then 2 and 3 the jobs
UPDATE and commit when the order is absent or not PENDING; or 2 the
orders UPDATE, 3 and 4 the log INSERT and commit, 5 the jobs UPDATE and
6 the final commit on the PENDING path. -/
def tookHandler (fault : Nat → Bool) (s : St) (oid : Nat) : Bool :=
  (fault 0 || fault 1) ||
    (match findOrder s oid with
     | none => fault 2 || fault 3
     | some row =>
       if row.status ≠ OrderStatus.pending then fault 2 || fault 3
       else (fault 2 || fault 3 || fault 4) || (fault 5 || fault 6))

/-- Fault oracle with the store unavailable both for the workflow's SELECT
(call 1) and for the except-branch's own connection (call 100): the
failure can then be recorded only in jobs_memory, not in the jobs table. -/
def dblFault : Nat → Bool := fun k => k == 1 || k == 100

/-- One abstract operation of the service: the four mutating endpoints plus
the execution of one scheduled background task.  Timestamps (now) and the
uuid of a confirmation job (jid) are inputs of the operation. -/
inductive Op where
  | create (uid iid sd ed now : Nat)
  | cancel (oid now : Nat)
  | updateStatus (oid : Nat) (ns : OrderStatus) (now : Nat)
  | confirm (oid jid : Nat)
  | runJob (jid now : Nat)
deriving DecidableEq

/-- Apply one operation to the state.  An HTTPException leaves the state
unchanged (every endpoint raises before its first commit).  The confirm
case only fires for a jid not already present in the jobs table: jid
models str(uuid.uuid4()), which never repeats an existing job key (a
repeat would in any case be rejected by the jobs primary key on INSERT).
The runJob case consumes the first scheduled task carrying jid, if any,
and runs the workflow uninterrupted with no database faults; a workflow
run that raises (impossible for tasks the service itself scheduled)
changes nothing beyond consuming the task. -/
def stepOp (s : St) : Op → St
  | .create uid iid sd ed now =>
    match create_order s uid iid sd ed now with
    | .ok (s', _) => s'
    | .error _ => s
  | .cancel oid now =>
    match cancel_order s oid now with
    | .ok (s', _) => s'
    | .error _ => s
  | .updateStatus oid ns now =>
    match update_order_status s oid ns now with
    | .ok (s', _) => s'
    | .error _ => s
  | .confirm oid jid =>
    if (findJob s.jobs jid).isSome then s
    else
      match confirm_order s oid jid with
      | .ok (s', _) => s'
      | .error _ => s
  | .runJob jid now =>
    match s.tasks.find? (fun t => t.2 == jid) with
    | none => s
    | some t =>
      let s1 : St := { s with tasks := s.tasks.eraseP (fun u => u.2 == jid) }
      match _process_confirm_order noFault s1 t.1 jid now with
      | .ok s2 => s2
      | .error _ => s1

/-- Run a list of operations from a state. -/
def runTrace (s : St) : List Op → St
  | [] => s
  | op :: tr => runTrace (stepOp s op) tr

/-! ## In-memory prototype variant (src/main_test.py)

src/main_test.py keeps the same API over in-memory dicts.  Its audit-log
helper _create_log assigns log ids itself instead of delegating to the
database, which is the code the logId claims point at, so it is embedded
separately here.  The per-order dict of lists order_logs is represented
as the flat list of entries in creation order (appends go to the end of
the owning order's list, so per-order order is the flat order). -/

/-- Number of log entries the store holds for order oid, i.e.
len(order_logs.get(order_id, [])). -/
def lenFor (logs : List LogEntry) (oid : Nat) : Nat :=
  (logs.filter (fun l => l.order_id == oid)).length

/-- Embeds _create_log (src/main_test.py lines 42-60): the new entry's
log_id is len(order_logs.get(order_id, [])) + 1, a per-order counter. -/
def createLogTest (logs : List LogEntry) (oid : Nat) (f t : OrderStatus) (ts : Nat) :
    List LogEntry :=
  logs ++ [{ log_id := lenFor logs oid + 1, order_id := oid,
             from_status := f, to_status := t, timestamp := ts }]

/-- State of the in-memory prototype: the orders dict, the flattened
order_logs dict, and the fake auto-increment counter _order_id_counter. -/
structure TSt where
  orders : List Order
  order_logs : List LogEntry
  counter : Nat
deriving DecidableEq

/-- Initial prototype state: empty dicts, _order_id_counter = 100. -/
def initTest : TSt := { orders := [], order_logs := [], counter := 100 }

/-- Embeds create_order of src/main_test.py (lines 142-177): increment the
counter, store the new PENDING order with placeholder amounts, and append
the initial PENDING to PENDING log entry via _create_log. -/
def create_order_test (s : TSt) (uid iid sd ed now : Nat) : TSt :=
  let nid := s.counter + 1
  let o : Order :=
    { id := nid, user_id := uid, item_id := iid, status := .pending,
      total_rent_cents := 49999, deposit_cents := 100000,
      created_at := now, updated_at := now, start_date := sd, end_date := ed }
  { orders := s.orders ++ [o],
    order_logs := createLogTest s.order_logs nid .pending .pending now,
    counter := nid }

/-- Fold _create_log over a list of (order_id, from, to, timestamp)
requests, the only way entries ever enter the prototype log store. -/
def appendLogsTest (logs : List LogEntry) :
    List (Nat × OrderStatus × OrderStatus × Nat) → List LogEntry
  | [] => logs
  | a :: rest => appendLogsTest (createLogTest logs a.1 a.2.1 a.2.2.1 a.2.2.2) rest

/-! ## Interleaved execution of the confirmation workflow (claim C1)

Two background runs of _process_confirm_order execute on separate worker
threads with separate database connections.  The atomic units are: one
dict write, one SELECT, and one commit (uncommitted statements of a
connection stay in its buffer).  A run is a small program over the shared
state with a program counter and connection-local data. -/

/-- Connection-local data of one workflow run: program counter, the row
fetched by the SELECT, and the connection's uncommitted write buffer. -/
structure RConf where
  pc : Nat
  row : Option Order
  buf : List DBWrite
deriving DecidableEq

/-- Starting configuration of a workflow run. -/
def rInit : RConf := { pc := 0, row := none, buf := [] }

/-- One atomic step of a _process_confirm_order run for (order_id = oid,
job_id = jid), faithful to the statement order of src/main.py lines
157-231 (no faults): 0 mark jobs_memory running; 1 SELECT the order;
2 branch on the fetched row, buffering the first UPDATE of the branch;
then for the PENDING branch 3 buffer the log INSERT, 4 commit (the commit
inside _create_log_db), 5 buffer the jobs UPDATE, 6 final commit, 7 write
jobs_memory succeeded; the two failure branches commit their jobs UPDATE
at pcs 10/20 and write jobs_memory at pcs 11/21.  pc 99 is termination. -/
def wfStep (oid jid now : Nat) : St × RConf → St × RConf
  | (s, c) =>
    match c.pc with
    | 0 => ({ s with jobsMemory := setMemStatus s.jobsMemory jid .running },
            { c with pc := 1 })
    | 1 => (s, { c with row := findOrder s oid, pc := 2 })
    | 2 =>
      match c.row with
      | none => (s, { c with buf := [.setJob jid .failed (some "order_not_found")], pc := 10 })
      | some o =>
        if o.status = OrderStatus.pending then
          (s, { c with buf := [.setOrder oid .active now], pc := 3 })
        else
          (s, { c with buf := [.setJob jid .failed (some "invalid_state")], pc := 20 })
    | 3 =>
      match c.row with
      | some o => (s, { c with buf := c.buf ++ [.insertLog oid o.status .active now], pc := 4 })
      | none => (s, { c with pc := 4 })
    | 4 => (commitW s c.buf, { c with buf := [], pc := 5 })
    | 5 => (s, { c with buf := [.setJob jid .succeeded (some ("/orders/" ++ toString oid))], pc := 6 })
    | 6 => (commitW s c.buf, { c with buf := [], pc := 7 })
    | 7 => ({ s with jobsMemory := setMemTerm s.jobsMemory jid .succeeded ("/orders/" ++ toString oid) },
            { c with pc := 99 })
    | 10 => (commitW s c.buf, { c with buf := [], pc := 11 })
    | 11 => ({ s with jobsMemory := setMemTerm s.jobsMemory jid .failed "order_not_found" },
             { c with pc := 99 })
    | 20 => (commitW s c.buf, { c with buf := [], pc := 21 })
    | 21 => ({ s with jobsMemory := setMemTerm s.jobsMemory jid .failed "invalid_state" },
             { c with pc := 99 })
    | _ => (s, c)

/-- Run two workflow instances (run A for job j1, run B for job j2, both
on order oid) under a schedule: true steps run A, false steps run B. -/
def runSched (oid j1 j2 nowA nowB : Nat) :
    List Bool → St × RConf × RConf → St × RConf × RConf
  | [], x => x
  | b :: rest, (s, c1, c2) =>
    if b then
      let p := wfStep oid j1 nowA (s, c1)
      runSched oid j1 j2 nowA nowB rest (p.1, p.2, c2)
    else
      let p := wfStep oid j2 nowB (s, c2)
      runSched oid j1 j2 nowA nowB rest (p.1, c1, p.2)

/-! ## Trace analysis definitions -/

/-- The status of order oid in state s, if the order exists. -/
def statusOf (s : St) (oid : Nat) : Option OrderStatus :=
  (findOrder s oid).map (fun o => o.status)

/-- 1 when the step from s to s' changed the stored status of order oid
(a status mutation actually applied to it), else 0. -/
def chg (s s' : St) (oid : Nat) : Nat :=
  match statusOf s oid, statusOf s' oid with
  | some a, some b => if a = b then 0 else 1
  | _, _ => 0

/-- stepOp instrumented with a ghost per-order count of applied status
mutations. -/
def gstep (sg : St × (Nat → Nat)) (op : Op) : St × (Nat → Nat) :=
  (stepOp sg.1 op, fun oid => sg.2 oid + chg sg.1 (stepOp sg.1 op) oid)

/-- Run a list of operations with the ghost mutation counter. -/
def grun (sg : St × (Nat → Nat)) : List Op → St × (Nat → Nat)
  | [] => sg
  | op :: tr => grun (gstep sg op) tr

/-- Audit-count invariant: ids of stored orders lie below the orders
auto-increment; an absent order has no log rows and a zero ghost count;
a present order has exactly 1 + (applied mutations) log rows. -/
def GInv (s : St) (g : Nat → Nat) : Prop :=
  (∀ oid, s.nextOrderId ≤ oid → findOrder s oid = none) ∧
  (∀ oid, findOrder s oid = none → lenFor s.logs oid = 0 ∧ g oid = 0) ∧
  (∀ oid o, findOrder s oid = some o → lenFor s.logs oid = 1 + g oid)

/-- Job-store invariant: the scheduled tasks carry pairwise distinct job
ids, and every scheduled task points at a PENDING row of the jobs table
(a terminal job has no pending task left). -/
def JInv (s : St) : Prop :=
  (s.tasks.map Prod.snd).Nodup ∧
  ∀ t ∈ s.tasks, ∃ j, findJob s.jobs t.2 = some j ∧ j.status = JobStatus.pending

/-! ## Concrete fixture states used by the witnesses -/

/-- A PENDING order. -/
def ordPending : Order :=
  { id := 1, user_id := 12, item_id := 505, status := .pending,
    total_rent_cents := 49999, deposit_cents := 100000,
    created_at := 0, updated_at := 0, start_date := 1, end_date := 7 }

/-- An ACTIVE order. -/
def ordActive : Order :=
  { id := 2, user_id := 12, item_id := 506, status := .active,
    total_rent_cents := 49999, deposit_cents := 100000,
    created_at := 0, updated_at := 1, start_date := 1, end_date := 7 }

/-- A CANCELLED order. -/
def ordCancelled : Order :=
  { id := 3, user_id := 13, item_id := 507, status := .cancelled,
    total_rent_cents := 49999, deposit_cents := 100000,
    created_at := 0, updated_at := 1, start_date := 1, end_date := 7 }

/-- A RETURNED order. -/
def ordReturned : Order :=
  { id := 4, user_id := 13, item_id := 508, status := .returned,
    total_rent_cents := 49999, deposit_cents := 100000,
    created_at := 0, updated_at := 2, start_date := 1, end_date := 7 }

/-- A fixture service state holding one order in each status, one pending
confirmation job with its scheduled task, and one finished job. -/
def sFix : St :=
  { orders := [ordPending, ordActive, ordCancelled, ordReturned],
    nextOrderId := 5,
    logs := [{ log_id := 1, order_id := 1, from_status := .pending,
               to_status := .pending, timestamp := 0 },
             { log_id := 2, order_id := 2, from_status := .pending,
               to_status := .pending, timestamp := 0 },
             { log_id := 3, order_id := 2, from_status := .pending,
               to_status := .active, timestamp := 1 },
             { log_id := 4, order_id := 3, from_status := .pending,
               to_status := .cancelled, timestamp := 1 },
             { log_id := 5, order_id := 4, from_status := .pending,
               to_status := .pending, timestamp := 0 },
             { log_id := 6, order_id := 4, from_status := .pending,
               to_status := .returned, timestamp := 2 }],
    nextLogId := 7,
    jobs := [{ job_id := 10, order_id := 1, status := .pending, result := none },
             { job_id := 11, order_id := 2, status := .succeeded, result := some "/orders/2" }],
    jobsMemory := [{ job_id := 10, order_id := 1, status := .pending, result := none },
                   { job_id := 11, order_id := 2, status := .succeeded, result := some "/orders/2" }],
    tasks := [(1, 10)] }

/-- The race fixture: one PENDING order (id 1) with its creation log row,
and two confirmation jobs (uuids 10 and 20) for that same order, both
PENDING in the jobs table and in jobs_memory, exactly as two ConfirmOrder
requests leave them before their background tasks run. -/
def raceSt : St :=
  { orders := [ordPending], nextOrderId := 2,
    logs := [{ log_id := 1, order_id := 1, from_status := .pending,
               to_status := .pending, timestamp := 0 }],
    nextLogId := 2,
    jobs := [{ job_id := 10, order_id := 1, status := .pending, result := none },
             { job_id := 20, order_id := 1, status := .pending, result := none }],
    jobsMemory := [{ job_id := 10, order_id := 1, status := .pending, result := none },
                   { job_id := 20, order_id := 1, status := .pending, result := none }],
    tasks := [] }

/-- The interleaving in which both workflow runs execute their SELECT
before either one commits: A and B each take their first two steps (mark
running, SELECT), then A runs to completion, then B runs to completion. -/
def raceSched : List Bool :=
  [true, true, false, false, true, true, true, true, true, true,
   false, false, false, false, false, false]

/-! ## Helper lemmas about the store primitives -/

theorem updIf_cons {α : Type} (p : α → Bool) (f : α → α) (a : α) (l : List α) :
    updIf p f (a :: l) = (if p a then f a else a) :: updIf p f l := rfl

theorem find?_updIf_eqkey {α : Type} (key : α → Nat) (f : α → α) (k : Nat)
    (hf : ∀ a, key (f a) = key a) (l : List α) :
    (updIf (fun a => key a == k) f l).find? (fun a => key a == k)
      = (l.find? (fun a => key a == k)).map f := by
  induction l with
  | nil => rfl
  | cons a l ih =>
    rw [updIf_cons]
    by_cases h : (key a == k) = true
    · have h2 : (key (f a) == k) = true := by rw [hf]; exact h
      rw [if_pos h, List.find?_cons, List.find?_cons, h, h2]
      rfl
    · have hb : (key a == k) = false := by
        revert h; cases key a == k <;> simp
      rw [if_neg h, List.find?_cons, List.find?_cons, hb]
      exact ih

theorem find?_updIf_nekey {α : Type} (key : α → Nat) (f : α → α) (k k' : Nat)
    (hne : k' ≠ k) (hf : ∀ a, key (f a) = key a) (l : List α) :
    (updIf (fun a => key a == k) f l).find? (fun a => key a == k')
      = l.find? (fun a => key a == k') := by
  induction l with
  | nil => rfl
  | cons a l ih =>
    rw [updIf_cons]
    by_cases h : (key a == k) = true
    · have hk : key a = k := by simpa using h
      have h' : (key a == k') = false := by simp [hk, Ne.symm hne]
      have h2 : (key (f a) == k') = false := by rw [hf]; exact h'
      rw [if_pos h, List.find?_cons, List.find?_cons, h', h2]
      exact ih
    · by_cases h' : (key a == k') = true
      · rw [if_neg h, List.find?_cons, List.find?_cons, h']
      · have hb' : (key a == k') = false := by
          revert h'; cases key a == k' <;> simp
        rw [if_neg h, List.find?_cons, List.find?_cons, hb']
        exact ih

theorem find?_append_some {α : Type} {p : α → Bool} {l1 : List α} (l2 : List α)
    {a : α} (h : l1.find? p = some a) : (l1 ++ l2).find? p = some a := by
  rw [List.find?_append, h]; rfl

theorem find?_append_none {α : Type} {p : α → Bool} {l1 : List α} (l2 : List α)
    (h : l1.find? p = none) : (l1 ++ l2).find? p = l2.find? p := by
  rw [List.find?_append, h]; rfl

theorem findOrder_update_self (s : St) (oid : Nat) (st : OrderStatus) (ts : Nat) :
    (updateOrderRow s.orders oid st ts).find? (fun o => o.id == oid)
      = (findOrder s oid).map (fun o => { o with status := st, updated_at := ts }) :=
  find?_updIf_eqkey Order.id
    (fun o => { o with status := st, updated_at := ts }) oid (fun _ => rfl) s.orders

theorem findOrder_update_other (s : St) (oid oid' : Nat) (st : OrderStatus) (ts : Nat)
    (h : oid' ≠ oid) :
    (updateOrderRow s.orders oid st ts).find? (fun o => o.id == oid')
      = findOrder s oid' :=
  find?_updIf_nekey Order.id
    (fun o => { o with status := st, updated_at := ts }) oid oid' h (fun _ => rfl) s.orders

theorem findJob_updateJobRow_self (l : List Job) (jid : Nat) (st : JobStatus)
    (res : Option String) :
    findJob (updateJobRow l jid st res) jid
      = (findJob l jid).map (fun j => { j with status := st, result := res }) :=
  find?_updIf_eqkey Job.job_id
    (fun j => { j with status := st, result := res }) jid (fun _ => rfl) l

theorem findJob_updateJobRow_other (l : List Job) (jid jid' : Nat) (st : JobStatus)
    (res : Option String) (h : jid' ≠ jid) :
    findJob (updateJobRow l jid st res) jid' = findJob l jid' :=
  find?_updIf_nekey Job.job_id
    (fun j => { j with status := st, result := res }) jid jid' h (fun _ => rfl) l

theorem findJob_setMemStatus_self (l : List Job) (jid : Nat) (st : JobStatus) :
    findJob (setMemStatus l jid st) jid
      = (findJob l jid).map (fun j => { j with status := st }) :=
  find?_updIf_eqkey Job.job_id (fun j => { j with status := st }) jid (fun _ => rfl) l

theorem findJob_setMemTerm_self (l : List Job) (jid : Nat) (st : JobStatus) (res : String) :
    findJob (setMemTerm l jid st res) jid
      = (findJob l jid).map (fun j => { j with status := st, result := some res }) :=
  find?_updIf_eqkey Job.job_id
    (fun j => { j with status := st, result := some res }) jid (fun _ => rfl) l

theorem commitW_jobsMemory (buf : List DBWrite) :
    ∀ s : St, (commitW s buf).jobsMemory = s.jobsMemory := by
  induction buf with
  | nil => intro s; rfl
  | cons w buf ih =>
    intro s
    rw [show commitW s (w :: buf) = commitW (applyWrite s w) buf from rfl, ih]
    cases w <;> rfl

theorem commitW_tasks (buf : List DBWrite) :
    ∀ s : St, (commitW s buf).tasks = s.tasks := by
  induction buf with
  | nil => intro s; rfl
  | cons w buf ih =>
    intro s
    rw [show commitW s (w :: buf) = commitW (applyWrite s w) buf from rfl, ih]
    cases w <;> rfl

theorem lenFor_append (logs : List LogEntry) (e : LogEntry) (oid : Nat) :
    lenFor (logs ++ [e]) oid
      = lenFor logs oid + (if e.order_id = oid then 1 else 0) := by
  simp only [lenFor, List.filter_append, List.length_append]
  by_cases h : e.order_id = oid
  · simp [List.filter_cons, h]
  · simp [List.filter_cons, h]

theorem findOrder_set_jobsMemory (s : St) (m : List Job) (oid : Nat) :
    findOrder { s with jobsMemory := m } oid = findOrder s oid := rfl

/-- Running the workflow with no database fault: closed form. -/
theorem process_noFault_eq (s : St) (oid jid now : Nat) :
    _process_confirm_order noFault s oid jid now =
      (if (findJob s.jobsMemory jid).isSome then
        match findOrder s oid with
        | none =>
          .ok { s with
                  jobs := updateJobRow s.jobs jid .failed (some "order_not_found"),
                  jobsMemory := setMemTerm (setMemStatus s.jobsMemory jid .running) jid
                                  .failed "order_not_found" }
        | some row =>
          if row.status ≠ OrderStatus.pending then
            .ok { s with
                    jobs := updateJobRow s.jobs jid .failed (some "invalid_state"),
                    jobsMemory := setMemTerm (setMemStatus s.jobsMemory jid .running) jid
                                    .failed "invalid_state" }
          else
            .ok { s with
                    orders := updateOrderRow s.orders oid .active now,
                    logs := s.logs ++ [{ log_id := s.nextLogId, order_id := oid,
                                         from_status := row.status, to_status := .active,
                                         timestamp := now }],
                    nextLogId := s.nextLogId + 1,
                    jobs := updateJobRow s.jobs jid .succeeded
                              (some ("/orders/" ++ toString oid)),
                    jobsMemory := setMemTerm (setMemStatus s.jobsMemory jid .running) jid
                                    .succeeded ("/orders/" ++ toString oid) }
      else .error .keyError) := rfl

/-- The jobs_memory contents after the except-branch ran. -/
theorem handler_mem (fault : Nat → Bool) (s : St) (jid : Nat) :
    (confirmExceptHandler fault s jid).jobsMemory
      = setMemTerm s.jobsMemory jid .failed "internal_error" := by
  by_cases hf : (fault 100 || fault 101 || fault 102) = true
  · simp only [confirmExceptHandler, if_pos hf]
  · simp only [confirmExceptHandler, if_neg hf, commitW_jobsMemory]

/-- When the except-branch's own database calls all succeed, it does
record the failure in the jobs table. -/
theorem handler_jobs (fault : Nat → Bool) (s : St) (jid : Nat)
    (hok : (fault 100 || fault 101 || fault 102) = false) :
    (confirmExceptHandler fault s jid).jobs
      = updateJobRow s.jobs jid .failed (some "internal_error") := by
  simp only [confirmExceptHandler]
  rw [hok, if_neg (fun hx : (false : Bool) = true => Bool.noConfusion hx)]
  rfl

/-- When one of the except-branch's own database calls fails, the jobs
table is left exactly as it was. -/
theorem handler_jobs_fail (fault : Nat → Bool) (s : St) (jid : Nat)
    (hbad : (fault 100 || fault 101 || fault 102) = true) :
    (confirmExceptHandler fault s jid).jobs = s.jobs := by
  simp only [confirmExceptHandler]
  rw [hbad, if_pos rfl]

/-! ## Result-shape lemmas for the endpoint functions -/

theorem create_order_ok_state (s : St) (uid iid sd ed now : Nat) (s' : St) (o' : Order)
    (h : create_order s uid iid sd ed now = .ok (s', o')) :
    s' = createState s uid iid sd ed now := by
  simp only [create_order] at h
  cases hf : findOrder (createState s uid iid sd ed now) s.nextOrderId with
  | none =>
    simp only [hf] at h
    exact Except.noConfusion h
  | some row =>
    simp only [hf, Except.ok.injEq, Prod.mk.injEq] at h
    exact h.1.symm

theorem cancel_order_ok_state (s : St) (oid now : Nat) (s' : St) (msg : String)
    (h : cancel_order s oid now = .ok (s', msg)) :
    ∃ row, findOrder s oid = some row ∧ row.status = OrderStatus.pending ∧
      s' = createLogDb { s with orders := updateOrderRow s.orders oid .cancelled now }
             oid row.status .cancelled now := by
  simp only [cancel_order] at h
  cases hf : findOrder s oid with
  | none =>
    simp only [hf] at h
    exact Except.noConfusion h
  | some row =>
    simp only [hf] at h
    by_cases hs : row.status = OrderStatus.pending
    · rw [if_neg (fun hne : row.status ≠ OrderStatus.pending => hne hs)] at h
      simp only [Except.ok.injEq, Prod.mk.injEq] at h
      exact ⟨row, rfl, hs, h.1.symm⟩
    · rw [if_pos hs] at h
      exact Except.noConfusion h

theorem update_order_status_ok_state (s : St) (oid : Nat) (ns : OrderStatus) (now : Nat)
    (s' : St) (o' : Order) (h : update_order_status s oid ns now = .ok (s', o')) :
    ∃ row, findOrder s oid = some row ∧
      row.status ≠ OrderStatus.cancelled ∧ row.status ≠ OrderStatus.returned ∧
      ((row.status ≠ ns ∧
        s' = createLogDb { s with orders := updateOrderRow s.orders oid ns now }
               oid row.status ns now) ∨
       (row.status = ns ∧ s' = s)) := by
  simp only [update_order_status] at h
  cases hf : findOrder s oid with
  | none =>
    simp only [hf] at h
    exact Except.noConfusion h
  | some row =>
    simp only [hf] at h
    by_cases hterm : row.status = OrderStatus.cancelled ∨ row.status = OrderStatus.returned
    · rw [if_pos hterm] at h
      exact Except.noConfusion h
    · rw [if_neg hterm] at h
      by_cases hns : row.status = ns
      · rw [if_neg (fun hne : row.status ≠ ns => hne hns)] at h
        simp only [hf, Except.ok.injEq, Prod.mk.injEq] at h
        exact ⟨row, rfl, fun hx => hterm (Or.inl hx), fun hx => hterm (Or.inr hx),
               Or.inr ⟨hns, h.1.symm⟩⟩
      · rw [if_pos hns] at h
        have hf2 : findOrder
            (createLogDb { s with orders := updateOrderRow s.orders oid ns now }
              oid row.status ns now) oid
            = some { row with status := ns, updated_at := now } := by
          show (updateOrderRow s.orders oid ns now).find? (fun x => x.id == oid) = _
          rw [findOrder_update_self, hf]
          rfl
        simp only [hf2, Except.ok.injEq, Prod.mk.injEq] at h
        exact ⟨row, rfl, fun hx => hterm (Or.inl hx), fun hx => hterm (Or.inr hx),
               Or.inl ⟨hns, h.1.symm⟩⟩

theorem confirm_order_ok_state (s : St) (oid jid : Nat) (s' : St) (r : Nat)
    (h : confirm_order s oid jid = .ok (s', r)) :
    ∃ row, findOrder s oid = some row ∧ row.status = OrderStatus.pending ∧
      s' = { s with
               jobs := s.jobs ++ [newJob oid jid],
               jobsMemory := s.jobsMemory ++ [newJob oid jid],
               tasks := s.tasks ++ [(oid, jid)] } := by
  simp only [confirm_order] at h
  cases hf : findOrder s oid with
  | none =>
    simp only [hf] at h
    exact Except.noConfusion h
  | some row =>
    simp only [hf] at h
    by_cases hs : row.status = OrderStatus.pending
    · rw [if_neg (fun hne : row.status ≠ OrderStatus.pending => hne hs)] at h
      simp only [Except.ok.injEq, Prod.mk.injEq] at h
      exact ⟨row, rfl, hs, h.1.symm⟩
    · rw [if_pos hs] at h
      exact Except.noConfusion h

theorem process_noFault_ok_cases (s : St) (oid jid now : Nat) (s2 : St)
    (h : _process_confirm_order noFault s oid jid now = .ok s2) :
    (findOrder s oid = none ∧
      s2 = { s with
               jobs := updateJobRow s.jobs jid .failed (some "order_not_found"),
               jobsMemory := setMemTerm (setMemStatus s.jobsMemory jid .running) jid
                               .failed "order_not_found" }) ∨
    (∃ row, findOrder s oid = some row ∧ row.status ≠ OrderStatus.pending ∧
      s2 = { s with
               jobs := updateJobRow s.jobs jid .failed (some "invalid_state"),
               jobsMemory := setMemTerm (setMemStatus s.jobsMemory jid .running) jid
                               .failed "invalid_state" }) ∨
    (∃ row, findOrder s oid = some row ∧ row.status = OrderStatus.pending ∧
      s2 = { s with
               orders := updateOrderRow s.orders oid .active now,
               logs := s.logs ++ [{ log_id := s.nextLogId, order_id := oid,
                                    from_status := row.status, to_status := .active,
                                    timestamp := now }],
               nextLogId := s.nextLogId + 1,
               jobs := updateJobRow s.jobs jid .succeeded
                         (some ("/orders/" ++ toString oid)),
               jobsMemory := setMemTerm (setMemStatus s.jobsMemory jid .running) jid
                               .succeeded ("/orders/" ++ toString oid) }) := by
  rw [process_noFault_eq] at h
  by_cases hm : (findJob s.jobsMemory jid).isSome = true
  · rw [if_pos hm] at h
    cases hf : findOrder s oid with
    | none =>
      simp only [hf, Except.ok.injEq] at h
      exact Or.inl ⟨rfl, h.symm⟩
    | some row =>
      simp only [hf] at h
      by_cases hs : row.status = OrderStatus.pending
      · rw [if_neg (fun hne : row.status ≠ OrderStatus.pending => hne hs)] at h
        simp only [Except.ok.injEq] at h
        exact Or.inr (Or.inr ⟨row, rfl, hs, h.symm⟩)
      · rw [if_pos hs] at h
        simp only [Except.ok.injEq] at h
        exact Or.inr (Or.inl ⟨row, rfl, hs, h.symm⟩)
  · rw [if_neg hm] at h
    exact Except.noConfusion h

/-! ## Claim theorems -/

/-- Claim C10: for an existing order in a non-terminal status, an
administrative UpdateOrderStatus whose new status equals the current one
rewrites nothing — the state is returned exactly as it was (in particular
updated_at keeps its value) and the unchanged order row is returned. -/
theorem noop_update_frame (s : St) (oid now : Nat) (o : Order)
    (h : findOrder s oid = some o)
    (hc : o.status ≠ OrderStatus.cancelled)
    (hr : o.status ≠ OrderStatus.returned) :
    update_order_status s oid o.status now = .ok (s, o) := by
  simp only [update_order_status, h]
  rw [if_neg (by
    intro hor
    cases hor with
    | inl hx => exact hc hx
    | inr hx => exact hr hx)]
  rw [if_neg (fun hne : o.status ≠ o.status => hne rfl)]
  rw [h]

/-- Witness for C10 at the fixture state: re-asserting ACTIVE on the
active order returns the state and the row unchanged. -/
theorem noop_update_frame_witness :
    update_order_status sFix 2 OrderStatus.active 9 = .ok (sFix, ordActive) :=
  noop_update_frame sFix 2 9 ordActive (by rfl) (by decide) (by decide)

/-- Claim C5: ConfirmOrder on a missing order id fails synchronously with
the NotFound error, and on an existing order that is not PENDING fails
synchronously with the InvalidState error; in both cases the operation
leaves the whole state unchanged, so no job record is created. -/
theorem confirm_order_sync_errors (s : St) (oid jid : Nat) :
    (findOrder s oid = none →
      confirm_order s oid jid = .error { code := 404, detail := "Order not found" } ∧
      stepOp s (.confirm oid jid) = s) ∧
    (∀ o, findOrder s oid = some o → o.status ≠ OrderStatus.pending →
      confirm_order s oid jid
        = .error { code := 400, detail := "Only pending orders can be confirmed" } ∧
      stepOp s (.confirm oid jid) = s) := by
  constructor
  · intro h
    have hco : confirm_order s oid jid
        = .error { code := 404, detail := "Order not found" } := by
      simp only [confirm_order, h]
    refine ⟨hco, ?_⟩
    simp only [stepOp]
    by_cases hj : (findJob s.jobs jid).isSome = true
    · rw [if_pos hj]
    · rw [if_neg hj, hco]
  · intro o h hs
    have hco : confirm_order s oid jid
        = .error { code := 400, detail := "Only pending orders can be confirmed" } := by
      simp only [confirm_order, h]
      rw [if_pos hs]
    refine ⟨hco, ?_⟩
    simp only [stepOp]
    by_cases hj : (findJob s.jobs jid).isSome = true
    · rw [if_pos hj]
    · rw [if_neg hj, hco]

/-- Witness for C5 at the fixture state: order 99 does not exist and
order 2 is ACTIVE. -/
theorem confirm_order_sync_errors_witness :
    (confirm_order sFix 99 77 = .error { code := 404, detail := "Order not found" } ∧
      stepOp sFix (.confirm 99 77) = sFix) ∧
    (confirm_order sFix 2 77
        = .error { code := 400, detail := "Only pending orders can be confirmed" } ∧
      stepOp sFix (.confirm 2 77) = sFix) :=
  ⟨(confirm_order_sync_errors sFix 99 77).1 (by rfl),
   (confirm_order_sync_errors sFix 2 77).2 ordActive (by rfl) (by decide)⟩

/-- Claim C8: CancelOrder succeeds exactly when the order exists in status
PENDING, in which case the status becomes CANCELLED with updated_at
refreshed and exactly one PENDING to CANCELLED log entry is appended; a
missing order yields NotFound, and an order not in PENDING (for example
one already cancelled) yields InvalidState with the whole state (status,
updated_at, log count) unchanged. -/
theorem cancel_order_cases (s : St) (oid now : Nat) :
    (findOrder s oid = none →
      cancel_order s oid now = .error { code := 404, detail := "Order not found" }) ∧
    (∀ o, findOrder s oid = some o → o.status ≠ OrderStatus.pending →
      cancel_order s oid now
        = .error { code := 400, detail := "Cannot cancel non-pending order" } ∧
      stepOp s (.cancel oid now) = s) ∧
    (∀ o, findOrder s oid = some o → o.status = OrderStatus.pending →
      cancel_order s oid now =
        .ok ({ s with
                 orders := updateOrderRow s.orders oid .cancelled now,
                 logs := s.logs ++ [{ log_id := s.nextLogId, order_id := oid,
                                      from_status := .pending, to_status := .cancelled,
                                      timestamp := now }],
                 nextLogId := s.nextLogId + 1 }, "Order cancelled successfully") ∧
      findOrder (stepOp s (.cancel oid now)) oid
        = some { o with status := .cancelled, updated_at := now }) := by
  refine ⟨?_, ?_, ?_⟩
  · intro h
    simp only [cancel_order, h]
  · intro o h hs
    have hco : cancel_order s oid now
        = .error { code := 400, detail := "Cannot cancel non-pending order" } := by
      simp only [cancel_order, h]
      rw [if_pos hs]
    refine ⟨hco, ?_⟩
    simp only [stepOp]
    rw [hco]
  · intro o h hp
    have hco : cancel_order s oid now =
        .ok ({ s with
                 orders := updateOrderRow s.orders oid .cancelled now,
                 logs := s.logs ++ [{ log_id := s.nextLogId, order_id := oid,
                                      from_status := .pending, to_status := .cancelled,
                                      timestamp := now }],
                 nextLogId := s.nextLogId + 1 }, "Order cancelled successfully") := by
      simp only [cancel_order, h]
      rw [if_neg (fun hne : o.status ≠ OrderStatus.pending => hne hp)]
      rw [hp]
      rfl
    refine ⟨hco, ?_⟩
    simp only [stepOp]
    rw [hco]
    show (updateOrderRow s.orders oid .cancelled now).find? (fun o => o.id == oid) = _
    rw [findOrder_update_self, h]
    rfl

/-- Claim C1 is refuted by the code: under the interleaving raceSched the
two concurrent confirmation workflow runs on the same PENDING order BOTH
end SUCCEEDED (neither fails with invalid_state), and the order's audit
log gains TWO PENDING to ACTIVE entries instead of exactly one.
_process_confirm_order checks the status it SELECTed earlier and then
issues an unconditional UPDATE, with no compare-and-transition, lock or
version check, so both runs observe PENDING and both commit. -/
theorem concurrent_confirm_double_success :
    (runSched 1 10 20 5 6 raceSched (raceSt, rInit, rInit)).1.jobs
      = [{ job_id := 10, order_id := 1, status := .succeeded, result := some "/orders/1" },
         { job_id := 20, order_id := 1, status := .succeeded, result := some "/orders/1" }] ∧
    ((runSched 1 10 20 5 6 raceSched (raceSt, rInit, rInit)).1.logs.filter
        (fun l => l.order_id == 1 && l.from_status == OrderStatus.pending
                    && l.to_status == OrderStatus.active)).length = 2 ∧
    (runSched 1 10 20 5 6 raceSched (raceSt, rInit, rInit)).2.1.pc = 99 ∧
    (runSched 1 10 20 5 6 raceSched (raceSt, rInit, rInit)).2.2.pc = 99 :=
  ⟨rfl, rfl, rfl, rfl⟩

/-- Claim C7 is refuted by the code: in the in-memory store of
src/main_test.py, two CreateOrder calls produce audit entries for two
different orders (ids 101 and 102) that carry the same logId 1, because
_create_log numbers entries per order — logIds are not unique across the
whole store. -/
theorem log_id_collision_across_orders :
    ((create_order_test (create_order_test initTest 12 505 1 7 0) 13 506 1 7 1).order_logs.map
        (fun l => (l.log_id, l.order_id)) = [(1, 101), (1, 102)]) ∧
    ¬ List.Pairwise (fun l1 l2 => l1.log_id ≠ l2.log_id)
        (create_order_test (create_order_test initTest 12 505 1 7 0) 13 506 1 7 1).order_logs := by
  constructor
  · rfl
  · decide

/-- One _create_log append preserves the per-order id characterization. -/
theorem filter_map_step (logs : List LogEntry) (e : LogEntry)
    (hid : e.log_id = lenFor logs e.order_id + 1)
    (hInv : ∀ oid, (logs.filter (fun l => l.order_id == oid)).map (fun l => l.log_id)
        = (List.range (lenFor logs oid)).map (fun i => i + 1)) :
    ∀ oid, ((logs ++ [e]).filter (fun l => l.order_id == oid)).map (fun l => l.log_id)
        = (List.range (lenFor (logs ++ [e]) oid)).map (fun i => i + 1) := by
  intro oid
  rw [List.filter_append, List.map_append, lenFor_append]
  by_cases ho : e.order_id = oid
  · have hfe : List.filter (fun l => l.order_id == oid) [e] = [e] := by
      simp [List.filter_cons, ho]
    rw [if_pos ho, hfe, List.range_succ, List.map_append, hInv oid]
    simp [hid, ho]
  · have hfe : List.filter (fun l => l.order_id == oid) [e] = [] := by
      simp [List.filter_cons, ho]
    rw [if_neg ho, hfe, hInv oid]
    simp

/-- All that ever reaches the prototype log store is a fold of _create_log
calls; per order, the stored ids read 1, 2, ..., n in insertion order. -/
theorem appendLogsTest_filter_map (apps : List (Nat × OrderStatus × OrderStatus × Nat)) :
    ∀ logs,
      (∀ oid, (logs.filter (fun l => l.order_id == oid)).map (fun l => l.log_id)
        = (List.range (lenFor logs oid)).map (fun i => i + 1)) →
      ∀ oid,
        ((appendLogsTest logs apps).filter (fun l => l.order_id == oid)).map
            (fun l => l.log_id)
          = (List.range (lenFor (appendLogsTest logs apps) oid)).map (fun i => i + 1) := by
  induction apps with
  | nil => exact fun logs hInv oid => hInv oid
  | cons a rest ih =>
    intro logs hInv oid
    exact ih _ (filter_map_step logs _ rfl hInv) oid

/-- Claim C7 (amended): in the prototype store, within each single order
the logIds of that order's entries are exactly 1, 2, ..., n in insertion
order — unique and strictly increasing per order; entries belonging to
different orders may reuse the same logId. -/
theorem log_id_per_order_range (apps : List (Nat × OrderStatus × OrderStatus × Nat))
    (oid : Nat) :
    ((appendLogsTest [] apps).filter (fun l => l.order_id == oid)).map (fun l => l.log_id)
      = (List.range (lenFor (appendLogsTest [] apps) oid)).map (fun i => i + 1) ∧
    (((appendLogsTest [] apps).filter (fun l => l.order_id == oid)).map
        (fun l => l.log_id)).Nodup := by
  have hchar := appendLogsTest_filter_map apps [] (fun oid' => rfl) oid
  refine ⟨hchar, ?_⟩
  rw [hchar]
  exact List.Nodup.map (fun a b hab => Nat.succ.inj hab)
    (List.nodup_range (lenFor (appendLogsTest [] apps) oid))

/-- Witness for the amended C7 at a concrete append sequence interleaving
two orders: order 101 gets ids 1 and 2, in order, despite an order 102
entry in between. -/
theorem log_id_per_order_range_witness :
    ((appendLogsTest []
        [(101, .pending, .pending, 0), (102, .pending, .pending, 1),
         (101, .pending, .active, 2)]).filter (fun l => l.order_id == 101)).map
        (fun l => l.log_id)
      = (List.range (lenFor (appendLogsTest []
          [(101, .pending, .pending, 0), (102, .pending, .pending, 1),
           (101, .pending, .active, 2)]) 101)).map (fun i => i + 1) ∧
    (((appendLogsTest []
        [(101, .pending, .pending, 0), (102, .pending, .pending, 1),
         (101, .pending, .active, 2)]).filter (fun l => l.order_id == 101)).map
        (fun l => l.log_id)).Nodup :=
  log_id_per_order_range
    [(101, .pending, .pending, 0), (102, .pending, .pending, 1),
     (101, .pending, .active, 2)] 101

/-- Claim C3: a terminal status is forever.  If an order is CANCELLED or
RETURNED, then no operation of the system — CreateOrder, CancelOrder,
UpdateOrderStatus, ConfirmOrder, or a run of the confirmation workflow —
ever changes that order's stored row again (its status in particular). -/
theorem terminal_order_status_preserved (s : St) (op : Op) (oid : Nat) (o : Order)
    (h : findOrder s oid = some o)
    (hterm : o.status = OrderStatus.cancelled ∨ o.status = OrderStatus.returned) :
    findOrder (stepOp s op) oid = some o := by
  have hon : o.status ≠ OrderStatus.pending := by
    cases hterm with
    | inl hx => rw [hx]; intro hc; cases hc
    | inr hx => rw [hx]; intro hc; cases hc
  cases op with
  | create uid iid sd ed now =>
    simp only [stepOp]
    cases hc : create_order s uid iid sd ed now with
    | error e => exact h
    | ok p =>
      obtain ⟨s', o'⟩ := p
      rw [create_order_ok_state s uid iid sd ed now s' o' hc]
      show (s.orders ++ [newOrder s uid iid sd ed now]).find? (fun x => x.id == oid) = some o
      exact find?_append_some _ h
  | cancel oid0 now =>
    simp only [stepOp]
    cases hc : cancel_order s oid0 now with
    | error e => exact h
    | ok p =>
      obtain ⟨s', msg⟩ := p
      obtain ⟨row, hrow, hp, hs'⟩ := cancel_order_ok_state s oid0 now s' msg hc
      subst hs'
      by_cases he : oid = oid0
      · subst he
        rw [h] at hrow
        cases hrow
        exact absurd hp hon
      · show (updateOrderRow s.orders oid0 .cancelled now).find? (fun x => x.id == oid)
          = some o
        rw [findOrder_update_other _ _ _ _ _ he]
        exact h
  | updateStatus oid0 ns now =>
    simp only [stepOp]
    cases hc : update_order_status s oid0 ns now with
    | error e => exact h
    | ok p =>
      obtain ⟨s', o'⟩ := p
      obtain ⟨row, hrow, hnc, hnr, hcases⟩ :=
        update_order_status_ok_state s oid0 ns now s' o' hc
      cases hcases with
      | inr hx =>
        rw [hx.2]
        exact h
      | inl hx =>
        obtain ⟨hne, hs'⟩ := hx
        subst hs'
        by_cases he : oid = oid0
        · subst he
          rw [h] at hrow
          cases hrow
          cases hterm with
          | inl hx2 => exact absurd hx2 hnc
          | inr hx2 => exact absurd hx2 hnr
        · show (updateOrderRow s.orders oid0 ns now).find? (fun x => x.id == oid) = some o
          rw [findOrder_update_other _ _ _ _ _ he]
          exact h
  | confirm oid0 jid =>
    simp only [stepOp]
    by_cases hj : (findJob s.jobs jid).isSome = true
    · rw [if_pos hj]
      exact h
    · rw [if_neg hj]
      cases hc : confirm_order s oid0 jid with
      | error e => exact h
      | ok p =>
        obtain ⟨s', r⟩ := p
        obtain ⟨row, hrow, hp, hs'⟩ := confirm_order_ok_state s oid0 jid s' r hc
        subst hs'
        exact h
  | runJob jid now =>
    simp only [stepOp]
    cases ht : s.tasks.find? (fun t => t.2 == jid) with
    | none => exact h
    | some t =>
      show findOrder
        (match _process_confirm_order noFault
            { s with tasks := s.tasks.eraseP (fun u => u.2 == jid) } t.1 jid now with
         | .ok s2 => s2
         | .error _ => { s with tasks := s.tasks.eraseP (fun u => u.2 == jid) }) oid
        = some o
      cases hr : _process_confirm_order noFault
          { s with tasks := s.tasks.eraseP (fun u => u.2 == jid) } t.1 jid now with
      | error e => exact h
      | ok s2 =>
        rcases process_noFault_ok_cases _ t.1 jid now s2 hr with
          ⟨hf, hs2⟩ | ⟨row, hrow, hnp, hs2⟩ | ⟨row, hrow, hp, hs2⟩
        · subst hs2
          exact h
        · subst hs2
          exact h
        · subst hs2
          by_cases he : oid = t.1
          · subst he
            rw [show findOrder { s with tasks := s.tasks.eraseP (fun u => u.2 == jid) } t.1
                  = findOrder s t.1 from rfl, h] at hrow
            cases hrow
            exact absurd hp hon
          · show (updateOrderRow s.orders t.1 .active now).find? (fun x => x.id == oid)
              = some o
            rw [findOrder_update_other _ _ _ _ _ he]
            exact h

/-- Witness for C3 at the fixture state: an administrative attempt to move
the cancelled order 3 back to ACTIVE leaves its row untouched. -/
theorem terminal_order_status_preserved_witness :
    findOrder (stepOp sFix (.updateStatus 3 OrderStatus.active 9)) 3 = some ordCancelled :=
  terminal_order_status_preserved sFix (.updateStatus 3 OrderStatus.active 9) 3
    ordCancelled (by rfl) (Or.inl rfl)

/-- Claim C2: one uninterrupted run of the confirmation workflow on a job
jid linked to order oid: if the order does not exist the job ends FAILED
with result order_not_found and neither orders nor logs change; if the
order exists but is not PENDING the job ends FAILED with result
invalid_state and orders and logs are unchanged; if the order is PENDING
its status becomes ACTIVE with updated_at refreshed, exactly one PENDING
to ACTIVE log entry is appended, and the job ends SUCCEEDED with a result
referencing the order — in the jobs table and in jobs_memory alike. -/
theorem confirm_workflow_cases (s : St) (oid jid now : Nat) (jm j0 : Job)
    (hmem : findJob s.jobsMemory jid = some jm)
    (hjob : findJob s.jobs jid = some j0) :
    (findOrder s oid = none →
      ∃ s', _process_confirm_order noFault s oid jid now = .ok s' ∧
        s'.orders = s.orders ∧ s'.logs = s.logs ∧
        findJob s'.jobs jid
          = some { j0 with status := .failed, result := some "order_not_found" } ∧
        findJob s'.jobsMemory jid
          = some { jm with status := .failed, result := some "order_not_found" }) ∧
    (∀ o, findOrder s oid = some o → o.status ≠ OrderStatus.pending →
      ∃ s', _process_confirm_order noFault s oid jid now = .ok s' ∧
        s'.orders = s.orders ∧ s'.logs = s.logs ∧
        findJob s'.jobs jid
          = some { j0 with status := .failed, result := some "invalid_state" } ∧
        findJob s'.jobsMemory jid
          = some { jm with status := .failed, result := some "invalid_state" }) ∧
    (∀ o, findOrder s oid = some o → o.status = OrderStatus.pending →
      ∃ s', _process_confirm_order noFault s oid jid now = .ok s' ∧
        findOrder s' oid = some { o with status := .active, updated_at := now } ∧
        s'.logs = s.logs ++ [{ log_id := s.nextLogId, order_id := oid,
                               from_status := .pending, to_status := .active,
                               timestamp := now }] ∧
        findJob s'.jobs jid
          = some { j0 with status := .succeeded,
                           result := some ("/orders/" ++ toString oid) } ∧
        findJob s'.jobsMemory jid
          = some { jm with status := .succeeded,
                           result := some ("/orders/" ++ toString oid) }) := by
  have hsome : (findJob s.jobsMemory jid).isSome = true := by rw [hmem]; rfl
  refine ⟨?_, ?_, ?_⟩
  · intro h
    rw [process_noFault_eq, if_pos hsome]
    simp only [h]
    refine ⟨_, rfl, rfl, rfl, ?_, ?_⟩
    · rw [findJob_updateJobRow_self, hjob]
      rfl
    · show findJob (setMemTerm (setMemStatus s.jobsMemory jid .running) jid
        .failed "order_not_found") jid = _
      rw [findJob_setMemTerm_self, findJob_setMemStatus_self, hmem]
      rfl
  · intro o h hs
    rw [process_noFault_eq, if_pos hsome]
    simp only [h]
    rw [if_pos hs]
    refine ⟨_, rfl, rfl, rfl, ?_, ?_⟩
    · rw [findJob_updateJobRow_self, hjob]
      rfl
    · show findJob (setMemTerm (setMemStatus s.jobsMemory jid .running) jid
        .failed "invalid_state") jid = _
      rw [findJob_setMemTerm_self, findJob_setMemStatus_self, hmem]
      rfl
  · intro o h hp
    rw [process_noFault_eq, if_pos hsome]
    simp only [h]
    rw [if_neg (fun hne : o.status ≠ OrderStatus.pending => hne hp), hp]
    refine ⟨_, rfl, ?_, rfl, ?_, ?_⟩
    · show (updateOrderRow s.orders oid .active now).find? (fun x => x.id == oid) = _
      rw [findOrder_update_self, h]
      rfl
    · rw [findJob_updateJobRow_self, hjob]
      rfl
    · show findJob (setMemTerm (setMemStatus s.jobsMemory jid .running) jid
        .succeeded ("/orders/" ++ toString oid)) jid = _
      rw [findJob_setMemTerm_self, findJob_setMemStatus_self, hmem]
      rfl

/-- Witness for C2 at the fixture state, exercising its PENDING branch on
order 1 and job 10. -/
theorem confirm_workflow_cases_witness :
    ∃ s', _process_confirm_order noFault sFix 1 10 9 = .ok s' ∧
      findOrder s' 1 = some { ordPending with status := .active, updated_at := 9 } ∧
      s'.logs = sFix.logs ++ [{ log_id := 7, order_id := 1, from_status := .pending,
                                to_status := .active, timestamp := 9 }] ∧
      findJob s'.jobs 10
        = some { job_id := 10, order_id := 1, status := .succeeded,
                 result := some "/orders/1" } ∧
      findJob s'.jobsMemory 10
        = some { job_id := 10, order_id := 1, status := .succeeded,
                 result := some "/orders/1" } :=
  (confirm_workflow_cases sFix 1 10 9
      { job_id := 10, order_id := 1, status := .pending, result := none }
      { job_id := 10, order_id := 1, status := .pending, result := none }
      (by rfl) (by rfl)).2.2 ordPending (by rfl) (by rfl)

/-- Claim C4 is refuted for the persistent jobs record: with the store
unavailable both for the workflow's SELECT and for the except-branch's
own recording write (fault oracle dblFault), the invocation returns
normally and converts the jobs_memory mirror to FAILED with result
internal_error, but the jobs-table record — the one GetJob polls — is
left in PENDING, not a terminal state, and a poll answers 202, so the
invocation does not terminate with that job in SUCCEEDED or FAILED. -/
theorem workflow_fault_leaves_job_pending :
    _process_confirm_order dblFault sFix 1 10 9
      = .ok { sFix with jobsMemory := setMemTerm (setMemStatus sFix.jobsMemory 10 .running) 10 .failed "internal_error" } ∧
    findJob ({ sFix with jobsMemory := setMemTerm (setMemStatus sFix.jobsMemory 10 .running) 10 .failed "internal_error" } : St).jobs 10
      = some { job_id := 10, order_id := 1, status := .pending, result := none } ∧
    get_job { sFix with jobsMemory := setMemTerm (setMemStatus sFix.jobsMemory 10 .running) 10 .failed "internal_error" } 10
      = .ok (202, { job_id := 10, order_id := 1, status := .pending, result := none }) ∧
    findJob ({ sFix with jobsMemory := setMemTerm (setMemStatus sFix.jobsMemory 10 .running) 10 .failed "internal_error" } : St).jobsMemory 10
      = some { job_id := 10, order_id := 1, status := .failed, result := some "internal_error" } :=
  ⟨rfl, rfl, rfl, rfl⟩

/-- Claim C4 (amended): whatever subset of its database calls fails, an
invocation of the confirmation workflow on a job present in jobs_memory
(which confirm_order guarantees) returns normally — no exception
propagates — and the job's jobs_memory entry always ends in exactly one
of SUCCEEDED or FAILED.  An unexpected failure during processing
(tookHandler) is converted to FAILED with result internal_error in
jobs_memory, and likewise in the persistent jobs-table record whenever
the except-branch's own database write succeeds; and on a run that no
failure interrupts, the jobs-table record too ends terminal, SUCCEEDED
with the order reference or FAILED with order_not_found or
invalid_state.  (When the recording write fails as well, the jobs-table
record stays PENDING — the counterexample above.) -/
theorem workflow_always_terminal (fault : Nat → Bool) (s : St) (oid jid now : Nat)
    (jm j0 : Job)
    (hmem : findJob s.jobsMemory jid = some jm)
    (hjob : findJob s.jobs jid = some j0) :
    ∃ s', _process_confirm_order fault s oid jid now = .ok s' ∧
      (∃ jm', findJob s'.jobsMemory jid = some jm' ∧
        (jm'.status = JobStatus.succeeded ∨ jm'.status = JobStatus.failed)) ∧
      (tookHandler fault s oid = true →
        findJob s'.jobsMemory jid
          = some { jm with status := .failed, result := some "internal_error" } ∧
        ((fault 100 || fault 101 || fault 102) = false →
          findJob s'.jobs jid
            = some { j0 with status := .failed, result := some "internal_error" })) ∧
      (tookHandler fault s oid = false →
        (findJob s'.jobs jid = some { j0 with status := .succeeded, result := some ("/orders/" ++ toString oid) } ∧
         findJob s'.jobsMemory jid = some { jm with status := .succeeded, result := some ("/orders/" ++ toString oid) }) ∨
        (∃ res, (res = "order_not_found" ∨ res = "invalid_state") ∧
          findJob s'.jobs jid = some { j0 with status := .failed, result := some res } ∧
          findJob s'.jobsMemory jid
            = some { jm with status := .failed, result := some res })) := by
  have hsome : (findJob s.jobsMemory jid).isSome = true := by rw [hmem]; rfl
  have hmemRun : ∀ st res,
      findJob (setMemTerm (setMemStatus s.jobsMemory jid .running) jid st res) jid
        = some { jm with status := st, result := some res } := by
    intro st res
    rw [findJob_setMemTerm_self, findJob_setMemStatus_self, hmem]
    rfl
  have hhandlerMem : ∀ s1 : St,
      s1.jobsMemory = setMemStatus s.jobsMemory jid .running →
      findJob (confirmExceptHandler fault s1 jid).jobsMemory jid
        = some { jm with status := .failed, result := some "internal_error" } := by
    intro s1 h1
    rw [handler_mem, h1, hmemRun]
  have hhandlerJobs : ∀ s1 : St, s1.jobs = s.jobs →
      (fault 100 || fault 101 || fault 102) = false →
      findJob (confirmExceptHandler fault s1 jid).jobs jid
        = some { j0 with status := .failed, result := some "internal_error" } := by
    intro s1 h1 hok
    rw [handler_jobs fault s1 jid hok, h1, findJob_updateJobRow_self, hjob]
    rfl
  unfold _process_confirm_order
  rw [if_pos hsome]
  by_cases h01 : (fault 0 || fault 1) = true
  · have hTH : tookHandler fault s oid = true := by
      unfold tookHandler
      rw [h01]
      rfl
    rw [if_pos h01]
    refine ⟨_, rfl, ⟨_, hhandlerMem _ rfl, Or.inr rfl⟩, ?_, ?_⟩
    · intro _
      exact ⟨hhandlerMem _ rfl, fun hok => hhandlerJobs _ rfl hok⟩
    · intro hf
      rw [hf] at hTH
      exact Bool.noConfusion hTH
  · have h01f : (fault 0 || fault 1) = false := by
      simp only [Bool.not_eq_true] at h01
      exact h01
    rw [if_neg h01, findOrder_set_jobsMemory]
    cases hO : findOrder s oid with
    | none =>
      simp only [hO]
      by_cases h23 : (fault 2 || fault 3) = true
      · have hTH : tookHandler fault s oid = true := by
          simp only [tookHandler, hO]
          rw [h23, Bool.or_true]
        rw [if_pos h23]
        refine ⟨_, rfl, ⟨_, hhandlerMem _ rfl, Or.inr rfl⟩, ?_, ?_⟩
        · intro _
          exact ⟨hhandlerMem _ rfl, fun hok => hhandlerJobs _ rfl hok⟩
        · intro hf
          rw [hf] at hTH
          exact Bool.noConfusion hTH
      · have h23f : (fault 2 || fault 3) = false := by
          simp only [Bool.not_eq_true] at h23
          exact h23
        have hTH : tookHandler fault s oid = false := by
          simp only [tookHandler, hO]
          rw [h01f, h23f]
          rfl
        rw [if_neg h23]
        have hmemEq : findJob
            (setMemTerm (commitW { s with
                jobsMemory := setMemStatus s.jobsMemory jid .running }
              [.setJob jid .failed (some "order_not_found")]).jobsMemory jid
              .failed "order_not_found") jid
            = some { jm with status := .failed, result := some "order_not_found" } := by
          rw [commitW_jobsMemory]
          exact hmemRun .failed "order_not_found"
        have hjobEq : findJob
            (updateJobRow s.jobs jid .failed (some "order_not_found")) jid
            = some { j0 with status := .failed, result := some "order_not_found" } := by
          rw [findJob_updateJobRow_self, hjob]
          rfl
        refine ⟨_, rfl, ⟨_, hmemEq, Or.inr rfl⟩, ?_, ?_⟩
        · intro ht
          rw [hTH] at ht
          exact Bool.noConfusion ht
        · intro _
          exact Or.inr ⟨"order_not_found", Or.inl rfl, hjobEq, hmemEq⟩
    | some row =>
      simp only [hO]
      by_cases hrp : row.status = OrderStatus.pending
      · rw [if_neg (fun hne : row.status ≠ OrderStatus.pending => hne hrp)]
        by_cases h234 : (fault 2 || fault 3 || fault 4) = true
        · have hTH : tookHandler fault s oid = true := by
            simp only [tookHandler, hO]
            rw [if_neg (fun hne : row.status ≠ OrderStatus.pending => hne hrp),
                h234, Bool.true_or, Bool.or_true]
          rw [if_pos h234]
          refine ⟨_, rfl, ⟨_, hhandlerMem _ rfl, Or.inr rfl⟩, ?_, ?_⟩
          · intro _
            exact ⟨hhandlerMem _ rfl, fun hok => hhandlerJobs _ rfl hok⟩
          · intro hf
            rw [hf] at hTH
            exact Bool.noConfusion hTH
        · have h234f : (fault 2 || fault 3 || fault 4) = false := by
            simp only [Bool.not_eq_true] at h234
            exact h234
          rw [if_neg h234]
          by_cases h56 : (fault 5 || fault 6) = true
          · have hTH : tookHandler fault s oid = true := by
              simp only [tookHandler, hO]
              rw [if_neg (fun hne : row.status ≠ OrderStatus.pending => hne hrp),
                  h56, Bool.or_true, Bool.or_true]
            rw [if_pos h56]
            have hmemH : findJob (confirmExceptHandler fault
                (commitW { s with jobsMemory := setMemStatus s.jobsMemory jid .running }
                  [.setOrder oid .active now, .insertLog oid row.status .active now])
                jid).jobsMemory jid
                = some { jm with status := .failed, result := some "internal_error" } := by
              rw [handler_mem, commitW_jobsMemory]
              exact hmemRun .failed "internal_error"
            refine ⟨_, rfl, ⟨_, hmemH, Or.inr rfl⟩, ?_, ?_⟩
            · intro _
              refine ⟨hmemH, fun hok => ?_⟩
              rw [handler_jobs fault _ jid hok]
              show findJob (updateJobRow s.jobs jid .failed (some "internal_error")) jid
                = _
              rw [findJob_updateJobRow_self, hjob]
              rfl
            · intro hf
              rw [hf] at hTH
              exact Bool.noConfusion hTH
          · have h56f : (fault 5 || fault 6) = false := by
              simp only [Bool.not_eq_true] at h56
              exact h56
            have hTH : tookHandler fault s oid = false := by
              simp only [tookHandler, hO]
              rw [if_neg (fun hne : row.status ≠ OrderStatus.pending => hne hrp),
                  h01f, h234f, h56f]
              rfl
            rw [if_neg h56]
            have hmemEq : findJob
                (setMemTerm (commitW (commitW { s with
                    jobsMemory := setMemStatus s.jobsMemory jid .running }
                  [.setOrder oid .active now, .insertLog oid row.status .active now])
                  [.setJob jid .succeeded (some ("/orders/" ++ toString oid))]).jobsMemory
                  jid .succeeded ("/orders/" ++ toString oid)) jid
                = some { jm with status := .succeeded, result := some ("/orders/" ++ toString oid) } := by
              rw [commitW_jobsMemory, commitW_jobsMemory]
              exact hmemRun .succeeded ("/orders/" ++ toString oid)
            have hjobEq : findJob
                (updateJobRow s.jobs jid .succeeded (some ("/orders/" ++ toString oid)))
                jid
                = some { j0 with status := .succeeded, result := some ("/orders/" ++ toString oid) } := by
              rw [findJob_updateJobRow_self, hjob]
              rfl
            refine ⟨_, rfl, ⟨_, hmemEq, Or.inl rfl⟩, ?_, ?_⟩
            · intro ht
              rw [hTH] at ht
              exact Bool.noConfusion ht
            · intro _
              exact Or.inl ⟨hjobEq, hmemEq⟩
      · rw [if_pos hrp]
        by_cases h23 : (fault 2 || fault 3) = true
        · have hTH : tookHandler fault s oid = true := by
            simp only [tookHandler, hO]
            rw [if_pos hrp, h23, Bool.or_true]
          rw [if_pos h23]
          refine ⟨_, rfl, ⟨_, hhandlerMem _ rfl, Or.inr rfl⟩, ?_, ?_⟩
          · intro _
            exact ⟨hhandlerMem _ rfl, fun hok => hhandlerJobs _ rfl hok⟩
          · intro hf
            rw [hf] at hTH
            exact Bool.noConfusion hTH
        · have h23f : (fault 2 || fault 3) = false := by
            simp only [Bool.not_eq_true] at h23
            exact h23
          have hTH : tookHandler fault s oid = false := by
            simp only [tookHandler, hO]
            rw [if_pos hrp, h01f, h23f]
            rfl
          rw [if_neg h23]
          have hmemEq : findJob
              (setMemTerm (commitW { s with
                  jobsMemory := setMemStatus s.jobsMemory jid .running }
                [.setJob jid .failed (some "invalid_state")]).jobsMemory jid
                .failed "invalid_state") jid
              = some { jm with status := .failed, result := some "invalid_state" } := by
            rw [commitW_jobsMemory]
            exact hmemRun .failed "invalid_state"
          have hjobEq : findJob
              (updateJobRow s.jobs jid .failed (some "invalid_state")) jid
              = some { j0 with status := .failed, result := some "invalid_state" } := by
            rw [findJob_updateJobRow_self, hjob]
            rfl
          refine ⟨_, rfl, ⟨_, hmemEq, Or.inr rfl⟩, ?_, ?_⟩
          · intro ht
            rw [hTH] at ht
            exact Bool.noConfusion ht
          · intro _
            exact Or.inr ⟨"invalid_state", Or.inr rfl, hjobEq, hmemEq⟩

/-- Witness for the amended C4, with only the workflow's SELECT failing
(call 1) while the except-branch's own recording write succeeds: the run
on the fixture state returns normally and the conversion clauses of the
theorem are available at this input. -/
theorem workflow_always_terminal_witness :
    ∃ s', _process_confirm_order (fun k => k == 1) sFix 1 10 9 = .ok s' ∧
      (∃ jm', findJob s'.jobsMemory 10 = some jm' ∧
        (jm'.status = JobStatus.succeeded ∨ jm'.status = JobStatus.failed)) ∧
      (tookHandler (fun k => k == 1) sFix 1 = true →
        findJob s'.jobsMemory 10
          = some { job_id := 10, order_id := 1, status := .failed, result := some "internal_error" } ∧
        ((((100 : Nat) == 1) || ((101 : Nat) == 1) || ((102 : Nat) == 1)) = false →
          findJob s'.jobs 10
            = some { job_id := 10, order_id := 1, status := .failed, result := some "internal_error" })) ∧
      (tookHandler (fun k => k == 1) sFix 1 = false →
        (findJob s'.jobs 10 = some { job_id := 10, order_id := 1, status := .succeeded, result := some ("/orders/" ++ toString 1) } ∧
         findJob s'.jobsMemory 10 = some { job_id := 10, order_id := 1, status := .succeeded, result := some ("/orders/" ++ toString 1) }) ∨
        (∃ res, (res = "order_not_found" ∨ res = "invalid_state") ∧
          findJob s'.jobs 10 = some { job_id := 10, order_id := 1, status := .failed, result := some res } ∧
          findJob s'.jobsMemory 10 = some { job_id := 10, order_id := 1, status := .failed, result := some res })) :=
  workflow_always_terminal (fun k => k == 1) sFix 1 10 9
    { job_id := 10, order_id := 1, status := .pending, result := none }
    { job_id := 10, order_id := 1, status := .pending, result := none }
    (by rfl) (by rfl)

/-- Witness for C8 at the fixture state: cancelling the pending order 1
succeeds and logs the transition; cancelling the cancelled order 3 and the
missing order 99 fail as stated. -/
theorem cancel_order_cases_witness :
    cancel_order sFix 99 9 = .error { code := 404, detail := "Order not found" } ∧
    (cancel_order sFix 3 9
        = .error { code := 400, detail := "Cannot cancel non-pending order" } ∧
      stepOp sFix (.cancel 3 9) = sFix) ∧
    findOrder (stepOp sFix (.cancel 1 9)) 1
      = some { ordPending with status := .cancelled, updated_at := 9 } :=
  ⟨(cancel_order_cases sFix 99 9).1 (by rfl),
   (cancel_order_cases sFix 3 9).2.1 ordCancelled (by rfl) (by decide),
   ((cancel_order_cases sFix 1 9).2.2 ordPending (by rfl) (by rfl)).2⟩

/-! ## The audit-log counting invariant (claim C6) -/

theorem chg_of_find_eq (s s' : St) (oid : Nat)
    (h : findOrder s' oid = findOrder s oid) : chg s s' oid = 0 := by
  unfold chg statusOf
  rw [h]
  cases findOrder s oid with
  | none => rfl
  | some a => simp

theorem chg_none_left (s s' : St) (oid : Nat) (h : findOrder s oid = none) :
    chg s s' oid = 0 := by
  unfold chg statusOf
  rw [h]
  cases findOrder s' oid <;> rfl

theorem GInv_frame (s s' : St) (g : Nat → Nat) (hInv : GInv s g)
    (hord : s'.orders = s.orders) (hlogs : s'.logs = s.logs)
    (hnext : s'.nextOrderId = s.nextOrderId) :
    GInv s' (fun oid => g oid + chg s s' oid) := by
  have hfind : ∀ oid, findOrder s' oid = findOrder s oid := by
    intro oid
    unfold findOrder
    rw [hord]
  have hchg : ∀ oid, chg s s' oid = 0 := fun oid => chg_of_find_eq s s' oid (hfind oid)
  obtain ⟨h1, h2, h3⟩ := hInv
  refine ⟨?_, ?_, ?_⟩
  · intro oid hle
    rw [hfind]
    exact h1 oid (hnext ▸ hle)
  · intro oid hnone
    rw [hfind] at hnone
    have hold := h2 oid hnone
    refine ⟨?_, ?_⟩
    · rw [hlogs]
      exact hold.1
    · show g oid + chg s s' oid = 0
      rw [hchg, hold.2]
  · intro oid o hsome
    rw [hfind] at hsome
    show lenFor s'.logs oid = 1 + (g oid + chg s s' oid)
    rw [hlogs, hchg, Nat.add_zero]
    exact h3 oid o hsome

theorem GInv_mutate (s s' : St) (g : Nat → Nat) (hInv : GInv s g)
    (oid0 : Nat) (row : Order) (hrow : findOrder s oid0 = some row)
    (st' : OrderStatus) (hst : row.status ≠ st') (now : Nat)
    (e : LogEntry) (he : e.order_id = oid0)
    (hord : s'.orders = updateOrderRow s.orders oid0 st' now)
    (hlogs : s'.logs = s.logs ++ [e])
    (hnext : s'.nextOrderId = s.nextOrderId) :
    GInv s' (fun oid => g oid + chg s s' oid) := by
  obtain ⟨h1, h2, h3⟩ := hInv
  have hfind_eq : findOrder s' oid0 = some { row with status := st', updated_at := now } := by
    unfold findOrder
    rw [hord, findOrder_update_self, hrow]
    rfl
  have hfind_ne : ∀ oid, oid ≠ oid0 → findOrder s' oid = findOrder s oid := by
    intro oid hne
    unfold findOrder
    rw [hord]
    exact findOrder_update_other s oid0 oid st' now hne
  have hoid0lt : oid0 < s.nextOrderId := by
    by_contra hge
    rw [h1 oid0 (Nat.le_of_not_lt hge)] at hrow
    exact Option.noConfusion hrow
  refine ⟨?_, ?_, ?_⟩
  · intro oid hle
    rw [hnext] at hle
    have hne : oid ≠ oid0 := by
      intro hi
      rw [hi] at hle
      exact Nat.not_le_of_lt hoid0lt hle
    rw [hfind_ne oid hne]
    exact h1 oid hle
  · intro oid hnone
    have hne : oid ≠ oid0 := by
      intro hi
      rw [hi, hfind_eq] at hnone
      exact Option.noConfusion hnone
    rw [hfind_ne oid hne] at hnone
    have hold := h2 oid hnone
    refine ⟨?_, ?_⟩
    · show lenFor s'.logs oid = 0
      rw [hlogs, lenFor_append, hold.1, he, if_neg (fun hx : oid0 = oid => hne hx.symm)]
    · show g oid + chg s s' oid = 0
      rw [chg_none_left s s' oid hnone, hold.2]
  · intro oid o hsome
    show lenFor s'.logs oid = 1 + (g oid + chg s s' oid)
    by_cases hoe : oid = oid0
    · subst hoe
      rw [hfind_eq] at hsome
      cases hsome
      rw [hlogs, lenFor_append, he, if_pos rfl, h3 oid row hrow]
      have hchg1 : chg s s' oid = 1 := by
        unfold chg statusOf
        rw [hrow, hfind_eq]
        simp [hst]
      rw [hchg1]
      omega
    · rw [hfind_ne oid hoe] at hsome
      rw [hlogs, lenFor_append, he, if_neg (fun hx : oid0 = oid => hoe hx.symm),
          chg_of_find_eq s s' oid (hfind_ne oid hoe), Nat.add_zero, Nat.add_zero]
      exact h3 oid o hsome

theorem GInv_create_step (s s' : St) (g : Nat → Nat) (hInv : GInv s g)
    (o : Order) (e : LogEntry)
    (hoid : o.id = s.nextOrderId) (heid : e.order_id = s.nextOrderId)
    (hord : s'.orders = s.orders ++ [o])
    (hlogs : s'.logs = s.logs ++ [e])
    (hnext : s'.nextOrderId = s.nextOrderId + 1) :
    GInv s' (fun oid => g oid + chg s s' oid) := by
  obtain ⟨h1, h2, h3⟩ := hInv
  have hfs_n : findOrder s s.nextOrderId = none := h1 _ (Nat.le_refl _)
  have hbeq : (o.id == s.nextOrderId) = true := by
    rw [hoid]
    exact beq_self_eq_true _
  have hfind_n : findOrder s' s.nextOrderId = some o := by
    unfold findOrder
    rw [hord, find?_append_none _ hfs_n, List.find?_cons, hbeq]
  have hfind_ne : ∀ oid, oid ≠ s.nextOrderId → findOrder s' oid = findOrder s oid := by
    intro oid hne
    have hbne : (o.id == oid) = false := by
      rw [hoid]
      exact beq_eq_false_iff_ne.mpr (fun hx => hne hx.symm)
    unfold findOrder
    rw [hord, List.find?_append, List.find?_cons, hbne]
    cases s.orders.find? (fun x => x.id == oid) <;> rfl
  refine ⟨?_, ?_, ?_⟩
  · intro oid hle
    rw [hnext] at hle
    have hne : oid ≠ s.nextOrderId := by
      intro hi
      rw [hi] at hle
      omega
    rw [hfind_ne oid hne]
    exact h1 oid (Nat.le_of_succ_le hle)
  · intro oid hnone
    have hne : oid ≠ s.nextOrderId := by
      intro hi
      rw [hi, hfind_n] at hnone
      exact Option.noConfusion hnone
    rw [hfind_ne oid hne] at hnone
    have hold := h2 oid hnone
    refine ⟨?_, ?_⟩
    · show lenFor s'.logs oid = 0
      rw [hlogs, lenFor_append, hold.1, heid,
          if_neg (fun hx : s.nextOrderId = oid => hne hx.symm)]
    · show g oid + chg s s' oid = 0
      rw [chg_none_left s s' oid hnone, hold.2]
  · intro oid o2 hsome
    show lenFor s'.logs oid = 1 + (g oid + chg s s' oid)
    by_cases hoe : oid = s.nextOrderId
    · rw [hoe]
      have hg0 := (h2 _ hfs_n).2
      have hl0 := (h2 _ hfs_n).1
      rw [hlogs, lenFor_append, hl0, heid, if_pos rfl,
          chg_none_left s s' _ hfs_n, hg0]
    · rw [hfind_ne oid hoe] at hsome
      rw [hlogs, lenFor_append, heid, if_neg (fun hx : s.nextOrderId = oid => hoe hx.symm),
          chg_of_find_eq s s' oid (hfind_ne oid hoe), Nat.add_zero, Nat.add_zero]
      exact h3 oid o2 hsome

theorem GInv_step (s : St) (g : Nat → Nat) (op : Op) (hInv : GInv s g) :
    GInv (stepOp s op) (fun oid => g oid + chg s (stepOp s op) oid) := by
  cases op with
  | create uid iid sd ed now =>
    simp only [stepOp]
    cases hc : create_order s uid iid sd ed now with
    | error e => exact GInv_frame s _ g hInv rfl rfl rfl
    | ok p =>
      obtain ⟨s', o'⟩ := p
      have hs := create_order_ok_state s uid iid sd ed now s' o' hc
      subst hs
      exact GInv_create_step s _ g hInv (newOrder s uid iid sd ed now) _ rfl rfl rfl rfl rfl
  | cancel oid0 now =>
    simp only [stepOp]
    cases hc : cancel_order s oid0 now with
    | error e => exact GInv_frame s _ g hInv rfl rfl rfl
    | ok p =>
      obtain ⟨s', msg⟩ := p
      obtain ⟨row, hrow, hp, hs'⟩ := cancel_order_ok_state s oid0 now s' msg hc
      subst hs'
      exact GInv_mutate s _ g hInv oid0 row hrow .cancelled
        (by rw [hp]; intro hx; cases hx) now _ rfl rfl rfl rfl
  | updateStatus oid0 ns now =>
    simp only [stepOp]
    cases hc : update_order_status s oid0 ns now with
    | error e => exact GInv_frame s _ g hInv rfl rfl rfl
    | ok p =>
      obtain ⟨s', o'⟩ := p
      obtain ⟨row, hrow, hnc, hnr, hcases⟩ :=
        update_order_status_ok_state s oid0 ns now s' o' hc
      cases hcases with
      | inl hx =>
        obtain ⟨hne, hs'⟩ := hx
        subst hs'
        exact GInv_mutate s _ g hInv oid0 row hrow ns hne now _ rfl rfl rfl rfl
      | inr hx =>
        obtain ⟨heq, hs'⟩ := hx
        rw [hs']
        exact GInv_frame s _ g hInv rfl rfl rfl
  | confirm oid0 jid =>
    simp only [stepOp]
    by_cases hj : (findJob s.jobs jid).isSome = true
    · rw [if_pos hj]
      exact GInv_frame s _ g hInv rfl rfl rfl
    · rw [if_neg hj]
      cases hc : confirm_order s oid0 jid with
      | error e => exact GInv_frame s _ g hInv rfl rfl rfl
      | ok p =>
        obtain ⟨s', r⟩ := p
        obtain ⟨row, hrow, hp, hs'⟩ := confirm_order_ok_state s oid0 jid s' r hc
        subst hs'
        exact GInv_frame s _ g hInv rfl rfl rfl
  | runJob jid now =>
    simp only [stepOp]
    cases ht : s.tasks.find? (fun t => t.2 == jid) with
    | none => exact GInv_frame s _ g hInv rfl rfl rfl
    | some t =>
      show GInv
        (match _process_confirm_order noFault
            { s with tasks := s.tasks.eraseP (fun u => u.2 == jid) } t.1 jid now with
         | .ok s2 => s2
         | .error _ => { s with tasks := s.tasks.eraseP (fun u => u.2 == jid) })
        (fun oid => g oid + chg s
          (match _process_confirm_order noFault
              { s with tasks := s.tasks.eraseP (fun u => u.2 == jid) } t.1 jid now with
           | .ok s2 => s2
           | .error _ => { s with tasks := s.tasks.eraseP (fun u => u.2 == jid) }) oid)
      cases hr : _process_confirm_order noFault
          { s with tasks := s.tasks.eraseP (fun u => u.2 == jid) } t.1 jid now with
      | error e => exact GInv_frame s _ g hInv rfl rfl rfl
      | ok s2 =>
        rcases process_noFault_ok_cases _ t.1 jid now s2 hr with
          ⟨hf, hs2⟩ | ⟨row, hrow, hnp, hs2⟩ | ⟨row, hrow, hp2, hs2⟩
        · subst hs2
          exact GInv_frame s _ g hInv rfl rfl rfl
        · subst hs2
          exact GInv_frame s _ g hInv rfl rfl rfl
        · subst hs2
          exact GInv_mutate s _ g hInv t.1 row hrow .active
            (by rw [hp2]; intro hx; cases hx) now _ rfl rfl rfl rfl

theorem GInv_init : GInv initSt (fun _ => 0) :=
  ⟨fun _ _ => rfl, fun _ _ => ⟨rfl, rfl⟩, fun _ _ h => Option.noConfusion h⟩

theorem GInv_run (tr : List Op) :
    ∀ sg : St × (Nat → Nat), GInv sg.1 sg.2 → GInv (grun sg tr).1 (grun sg tr).2 := by
  induction tr with
  | nil => exact fun sg h => h
  | cons op rest ih =>
    intro sg h
    exact ih (gstep sg op) (GInv_step sg.1 sg.2 op h)

/-- Claim C6: from the empty store, after any sequence of operations,
every existing order's number of audit log rows equals 1 (the creation
PENDING to PENDING row) plus the number of status mutations actually
applied to it — the ghost count (grun ...).2 oid, which adds one exactly
at the steps that changed the order's stored status; and an
administrative UpdateOrderStatus whose new status equals the current
status changes nothing at all, so it appends zero log rows. -/
theorem audit_log_count_invariant :
    (∀ (tr : List Op) (oid : Nat) (o : Order),
      findOrder (grun (initSt, fun _ => 0) tr).1 oid = some o →
      lenFor (grun (initSt, fun _ => 0) tr).1.logs oid
        = 1 + (grun (initSt, fun _ => 0) tr).2 oid) ∧
    (∀ (s : St) (oid now : Nat) (o : Order),
      findOrder s oid = some o → o.status ≠ OrderStatus.cancelled →
      o.status ≠ OrderStatus.returned →
      stepOp s (.updateStatus oid o.status now) = s) := by
  constructor
  · intro tr oid o h
    exact (GInv_run tr (initSt, fun _ => 0) GInv_init).2.2 oid o h
  · intro s oid now o h hc hr
    have hupd : update_order_status s oid o.status now = .ok (s, o) := by
      simp only [update_order_status, h]
      rw [if_neg (by
        intro hor
        cases hor with
        | inl hx => exact hc hx
        | inr hx => exact hr hx)]
      rw [if_neg (fun hne : o.status ≠ o.status => hne rfl)]
      rw [h]
    simp only [stepOp]
    rw [hupd]

/-- Witness for C6: a create-then-cancel trace yields two log rows for
order 1 and a ghost count of one applied mutation; re-asserting ACTIVE on
the fixture's active order is a complete no-op. -/
theorem audit_log_count_invariant_witness :
    lenFor (grun (initSt, fun _ => 0) [.create 12 505 1 7 0, .cancel 1 3]).1.logs 1
      = 1 + (grun (initSt, fun _ => 0) [.create 12 505 1 7 0, .cancel 1 3]).2 1 ∧
    stepOp sFix (.updateStatus 2 OrderStatus.active 9) = sFix :=
  ⟨audit_log_count_invariant.1 [.create 12 505 1 7 0, .cancel 1 3] 1
      { id := 1, user_id := 12, item_id := 505, status := .cancelled,
        total_rent_cents := 49999, deposit_cents := 100000,
        created_at := 0, updated_at := 3, start_date := 1, end_date := 7 } (by rfl),
   audit_log_count_invariant.2 sFix 2 9 ordActive (by rfl) (by decide) (by decide)⟩

/-! ## Terminal jobs are never rewritten (claim C9) -/

theorem eraseP_cons_pos {α : Type} (p : α → Bool) (a : α) (l : List α) (h : p a = true) :
    (a :: l).eraseP p = l := List.eraseP_cons_of_pos h

theorem eraseP_cons_neg {α : Type} (p : α → Bool) (a : α) (l : List α) (h : p a = false) :
    (a :: l).eraseP p = a :: l.eraseP p := List.eraseP_cons_of_neg (by simp [h])

theorem find?_pred {α : Type} (p : α → Bool) (l : List α) (a : α)
    (h : l.find? p = some a) : p a = true := List.find?_some h

theorem snd_ne_of_mem_eraseP (k : Nat) :
    ∀ l : List (Nat × Nat), (l.map Prod.snd).Nodup →
      ∀ t : Nat × Nat, t ∈ l.eraseP (fun u => u.2 == k) → t.2 ≠ k := by
  intro l
  induction l with
  | nil =>
    intro _ t ht
    cases ht
  | cons a l ih =>
    intro hnd t ht
    rw [List.map_cons, List.nodup_cons] at hnd
    by_cases ha : (a.2 == k) = true
    · rw [eraseP_cons_pos (fun u => u.2 == k) a l ha] at ht
      intro htk
      have hak : a.2 = k := by simpa using ha
      have hmem : t.2 ∈ l.map Prod.snd := List.mem_map_of_mem Prod.snd ht
      rw [htk, ← hak] at hmem
      exact hnd.1 hmem
    · have haf : ((fun u : Nat × Nat => u.2 == k) a) = false := by
        simp only [Bool.not_eq_true] at ha
        exact ha
      rw [eraseP_cons_neg (fun u => u.2 == k) a l haf] at ht
      cases ht with
      | head => simpa using ha
      | tail _ ht' => exact ih hnd.2 t ht'

theorem JInv_step (s : St) (op : Op) (hJ : JInv s) : JInv (stepOp s op) := by
  obtain ⟨hnd, htask⟩ := hJ
  cases op with
  | create uid iid sd ed now =>
    simp only [stepOp]
    cases hc : create_order s uid iid sd ed now with
    | error e => exact ⟨hnd, htask⟩
    | ok p =>
      obtain ⟨s', o'⟩ := p
      have hs := create_order_ok_state s uid iid sd ed now s' o' hc
      subst hs
      exact ⟨hnd, htask⟩
  | cancel oid0 now =>
    simp only [stepOp]
    cases hc : cancel_order s oid0 now with
    | error e => exact ⟨hnd, htask⟩
    | ok p =>
      obtain ⟨s', msg⟩ := p
      obtain ⟨row, hrow, hp, hs'⟩ := cancel_order_ok_state s oid0 now s' msg hc
      subst hs'
      exact ⟨hnd, htask⟩
  | updateStatus oid0 ns now =>
    simp only [stepOp]
    cases hc : update_order_status s oid0 ns now with
    | error e => exact ⟨hnd, htask⟩
    | ok p =>
      obtain ⟨s', o'⟩ := p
      obtain ⟨row, hrow, hnc, hnr, hcases⟩ :=
        update_order_status_ok_state s oid0 ns now s' o' hc
      cases hcases with
      | inl hx =>
        obtain ⟨hne, hs'⟩ := hx
        subst hs'
        exact ⟨hnd, htask⟩
      | inr hx =>
        obtain ⟨heq, hs'⟩ := hx
        rw [hs']
        exact ⟨hnd, htask⟩
  | confirm oid0 jid =>
    simp only [stepOp]
    by_cases hj : (findJob s.jobs jid).isSome = true
    · rw [if_pos hj]
      exact ⟨hnd, htask⟩
    · rw [if_neg hj]
      cases hc : confirm_order s oid0 jid with
      | error e => exact ⟨hnd, htask⟩
      | ok p =>
        obtain ⟨s', r⟩ := p
        obtain ⟨row, hrow, hp, hs'⟩ := confirm_order_ok_state s oid0 jid s' r hc
        subst hs'
        have hnone : findJob s.jobs jid = none := by
          cases hfj : findJob s.jobs jid with
          | none => rfl
          | some jx =>
            rw [hfj] at hj
            exact absurd rfl hj
        constructor
        · show ((s.tasks ++ [(oid0, jid)]).map Prod.snd).Nodup
          rw [List.map_append, List.nodup_append]
          refine ⟨hnd, List.nodup_singleton _, ?_⟩
          intro x hx hx2
          have hxj : x = jid := by simpa using hx2
          subst hxj
          obtain ⟨t, ht, ht2⟩ := List.mem_map.mp hx
          obtain ⟨jx, hfind, _⟩ := htask t ht
          rw [ht2, hnone] at hfind
          exact Option.noConfusion hfind
        · intro t ht
          have ht2 : t ∈ s.tasks ++ [(oid0, jid)] := ht
          rw [List.mem_append] at ht2
          cases ht2 with
          | inl htold =>
            obtain ⟨jx, hfind, hjp⟩ := htask t htold
            exact ⟨jx, find?_append_some _ hfind, hjp⟩
          | inr htnew =>
            have hteq : t = (oid0, jid) := by simpa using htnew
            subst hteq
            refine ⟨newJob oid0 jid, ?_, rfl⟩
            show (s.jobs ++ [newJob oid0 jid]).find? (fun x => x.job_id == jid) = _
            rw [find?_append_none _ hnone, List.find?_cons]
            rw [show ((newJob oid0 jid).job_id == jid) = true from beq_self_eq_true _]
  | runJob jid now =>
    simp only [stepOp]
    cases ht : s.tasks.find? (fun t => t.2 == jid) with
    | none => exact ⟨hnd, htask⟩
    | some t =>
      have hnd' : (((s.tasks.eraseP (fun u => u.2 == jid)).map Prod.snd)).Nodup :=
        hnd.sublist ((List.eraseP_sublist s.tasks).map Prod.snd)
      have hmem' : ∀ u, u ∈ s.tasks.eraseP (fun u => u.2 == jid) → u ∈ s.tasks :=
        fun u hu => List.mem_of_mem_eraseP hu
      have hne' : ∀ u, u ∈ s.tasks.eraseP (fun u => u.2 == jid) → u.2 ≠ jid :=
        fun u hu => snd_ne_of_mem_eraseP jid s.tasks hnd u hu
      show JInv
        (match _process_confirm_order noFault
            { s with tasks := s.tasks.eraseP (fun u => u.2 == jid) } t.1 jid now with
         | .ok s2 => s2
         | .error _ => { s with tasks := s.tasks.eraseP (fun u => u.2 == jid) })
      cases hr : _process_confirm_order noFault
          { s with tasks := s.tasks.eraseP (fun u => u.2 == jid) } t.1 jid now with
      | error e => exact ⟨hnd', fun u hu => htask u (hmem' u hu)⟩
      | ok s2 =>
        rcases process_noFault_ok_cases _ t.1 jid now s2 hr with
          ⟨hf, hs2⟩ | ⟨row, hrow, hnp, hs2⟩ | ⟨row, hrow, hp2, hs2⟩
        · subst hs2
          refine ⟨hnd', ?_⟩
          intro u hu
          obtain ⟨jx, hfind, hjp⟩ := htask u (hmem' u hu)
          refine ⟨jx, ?_, hjp⟩
          show findJob (updateJobRow s.jobs jid .failed (some "order_not_found")) u.2
            = some jx
          rw [findJob_updateJobRow_other _ _ _ _ _ (hne' u hu)]
          exact hfind
        · subst hs2
          refine ⟨hnd', ?_⟩
          intro u hu
          obtain ⟨jx, hfind, hjp⟩ := htask u (hmem' u hu)
          refine ⟨jx, ?_, hjp⟩
          show findJob (updateJobRow s.jobs jid .failed (some "invalid_state")) u.2
            = some jx
          rw [findJob_updateJobRow_other _ _ _ _ _ (hne' u hu)]
          exact hfind
        · subst hs2
          refine ⟨hnd', ?_⟩
          intro u hu
          obtain ⟨jx, hfind, hjp⟩ := htask u (hmem' u hu)
          refine ⟨jx, ?_, hjp⟩
          show findJob (updateJobRow s.jobs jid .succeeded
              (some ("/orders/" ++ toString t.1))) u.2 = some jx
          rw [findJob_updateJobRow_other _ _ _ _ _ (hne' u hu)]
          exact hfind

theorem JInv_init : JInv initSt :=
  ⟨List.nodup_nil, fun t ht => absurd ht (List.not_mem_nil t)⟩

theorem JInv_run (tr : List Op) : ∀ s : St, JInv s → JInv (runTrace s tr) := by
  induction tr with
  | nil => exact fun s h => h
  | cons op rest ih =>
    intro s h
    exact ih (stepOp s op) (JInv_step s op h)

theorem runTrace_append (tr : List Op) (op : Op) :
    ∀ s : St, runTrace s (tr ++ [op]) = stepOp (runTrace s tr) op := by
  induction tr with
  | nil => exact fun s => rfl
  | cons op0 rest ih =>
    intro s
    exact ih (stepOp s op0)

theorem job_stable_step (s : St) (op : Op) (jid : Nat) (j : Job) (hJ : JInv s)
    (h : findJob s.jobs jid = some j)
    (hterm : j.status = JobStatus.succeeded ∨ j.status = JobStatus.failed) :
    findJob (stepOp s op).jobs jid = some j := by
  have hjp : j.status ≠ JobStatus.pending := by
    cases hterm with
    | inl hx => rw [hx]; intro hc; cases hc
    | inr hx => rw [hx]; intro hc; cases hc
  cases op with
  | create uid iid sd ed now =>
    simp only [stepOp]
    cases hc : create_order s uid iid sd ed now with
    | error e => exact h
    | ok p =>
      obtain ⟨s', o'⟩ := p
      have hs := create_order_ok_state s uid iid sd ed now s' o' hc
      subst hs
      exact h
  | cancel oid0 now =>
    simp only [stepOp]
    cases hc : cancel_order s oid0 now with
    | error e => exact h
    | ok p =>
      obtain ⟨s', msg⟩ := p
      obtain ⟨row, hrow, hp, hs'⟩ := cancel_order_ok_state s oid0 now s' msg hc
      subst hs'
      exact h
  | updateStatus oid0 ns now =>
    simp only [stepOp]
    cases hc : update_order_status s oid0 ns now with
    | error e => exact h
    | ok p =>
      obtain ⟨s', o'⟩ := p
      obtain ⟨row, hrow, hnc, hnr, hcases⟩ :=
        update_order_status_ok_state s oid0 ns now s' o' hc
      cases hcases with
      | inl hx =>
        obtain ⟨hne, hs'⟩ := hx
        subst hs'
        exact h
      | inr hx =>
        rw [hx.2]
        exact h
  | confirm oid0 jid0 =>
    simp only [stepOp]
    by_cases hj : (findJob s.jobs jid0).isSome = true
    · rw [if_pos hj]
      exact h
    · rw [if_neg hj]
      cases hc : confirm_order s oid0 jid0 with
      | error e => exact h
      | ok p =>
        obtain ⟨s', r⟩ := p
        obtain ⟨row, hrow, hp, hs'⟩ := confirm_order_ok_state s oid0 jid0 s' r hc
        subst hs'
        show (s.jobs ++ [newJob oid0 jid0]).find? (fun x => x.job_id == jid) = some j
        exact find?_append_some _ h
  | runJob jid0 now =>
    simp only [stepOp]
    cases ht : s.tasks.find? (fun t => t.2 == jid0) with
    | none => exact h
    | some t =>
      have htmem : t ∈ s.tasks := List.mem_of_find?_eq_some ht
      have htk := find?_pred (fun u => u.2 == jid0) s.tasks t ht
      have hne : jid ≠ jid0 := by
        intro heq
        obtain ⟨jx, hfind, hjpend⟩ := hJ.2 t htmem
        have ht2 : t.2 = jid0 := by simpa using htk
        rw [ht2, ← heq, h] at hfind
        cases hfind
        exact hjp hjpend
      show findJob
        (match _process_confirm_order noFault
            { s with tasks := s.tasks.eraseP (fun u => u.2 == jid0) } t.1 jid0 now with
         | .ok s2 => s2
         | .error _ => { s with tasks := s.tasks.eraseP (fun u => u.2 == jid0) }).jobs
        jid = some j
      cases hr : _process_confirm_order noFault
          { s with tasks := s.tasks.eraseP (fun u => u.2 == jid0) } t.1 jid0 now with
      | error e => exact h
      | ok s2 =>
        rcases process_noFault_ok_cases _ t.1 jid0 now s2 hr with
          ⟨hf, hs2⟩ | ⟨row, hrow, hnp, hs2⟩ | ⟨row, hrow, hp2, hs2⟩
        · subst hs2
          show findJob (updateJobRow s.jobs jid0 .failed (some "order_not_found")) jid
            = some j
          rw [findJob_updateJobRow_other _ _ _ _ _ hne]
          exact h
        · subst hs2
          show findJob (updateJobRow s.jobs jid0 .failed (some "invalid_state")) jid
            = some j
          rw [findJob_updateJobRow_other _ _ _ _ _ hne]
          exact h
        · subst hs2
          show findJob (updateJobRow s.jobs jid0 .succeeded
              (some ("/orders/" ++ toString t.1))) jid = some j
          rw [findJob_updateJobRow_other _ _ _ _ _ hne]
          exact h

/-- Claim C9: once a job has reached a terminal status, no subsequent
operation of the system ever changes its row, so every later GetJob poll
returns the same terminal status and result forever; and while a job is
still PENDING or RUNNING, GetJob reports it as not yet complete (HTTP
202, the polling pattern). -/
theorem job_terminal_stable :
    (∀ (tr : List Op) (op : Op) (jid : Nat) (j : Job),
      findJob (runTrace initSt tr).jobs jid = some j →
      (j.status = JobStatus.succeeded ∨ j.status = JobStatus.failed) →
      findJob (runTrace initSt (tr ++ [op])).jobs jid = some j) ∧
    (∀ (s : St) (jid : Nat) (j : Job),
      findJob s.jobs jid = some j →
      (j.status = JobStatus.pending ∨ j.status = JobStatus.running) →
      get_job s jid = .ok (202, j)) := by
  constructor
  · intro tr op jid j h hterm
    rw [runTrace_append tr op initSt]
    exact job_stable_step _ op jid j (JInv_run tr initSt JInv_init) h hterm
  · intro s jid j h hpr
    simp only [get_job, h]
    rw [if_pos hpr]

/-- Witness for C9: after create, confirm and the workflow run, job 10 is
SUCCEEDED; a further CancelOrder attempt leaves it untouched; and polling
the still-pending job 10 of the fixture state returns 202. -/
theorem job_terminal_stable_witness :
    findJob (runTrace initSt
        ([.create 12 505 1 7 0, .confirm 1 10, .runJob 10 2] ++ [.cancel 1 3])).jobs 10
      = some { job_id := 10, order_id := 1, status := .succeeded,
               result := some "/orders/1" } ∧
    get_job sFix 10
      = .ok (202, { job_id := 10, order_id := 1, status := .pending, result := none }) :=
  ⟨job_terminal_stable.1 [.create 12 505 1 7 0, .confirm 1 10, .runJob 10 2]
      (.cancel 1 3) 10 _ (by rfl) (Or.inl rfl),
   job_terminal_stable.2 sFix 10 _ (by rfl) (Or.inl rfl)⟩

end OrderService
